import Mathlib

/-!
# GOCSP-responder: a shallow embedding of `responder/responder.go`

The development embeds the responder of `src/gocsp-responder/responder/responder.go`:
the index (ledger) reader `parseIndex` / `getIndexEntry`, the request handler built by
`makeHandler`, the response builder `verify` and the start-up routine `Serve`.

Conventions of the embedding.

* A Go call either returns a value, returns a non-nil `error`, or panics; the three
  cases are the constructors of `Outcome`.
* Go `byte` and `uint64` values are natural numbers; `uint64` results are reduced
  modulo `2 ^ 64` where the source can overflow.
* Text is a `String` (valid UTF-8); byte slices are `List Nat`.
* Library calls whose results depend on cryptography or on the operating system
  (`os.Open`, `ioutil.ReadFile`, `pem.Decode`, `x509.Parse...`, `ocsp.ParseRequest`,
  `ocsp.CreateResponse`, `time.Now`) are fields of the environment `Env`; the
  pure library routines the code relies on (`strings.Fields`, `strconv.ParseUint`,
  `base64.StdEncoding.DecodeString`, `bytes.Buffer`, `time.Truncate`,
  `time.AddDate`) are modelled by their documented behaviour.
-/

namespace GOCSP

/-! ## Results of Go calls -/

/-- Result of a Go call: a returned value, a returned `error` (its message), or a
run-time panic (its message). -/
inductive Outcome (α : Type) where
  | ret (a : α)
  | fail (e : String)
  | panicked (e : String)
  deriving DecidableEq

/-! ## `strings.Fields` -/

/-- Go `unicode.IsSpace`: the Unicode White_Space code points. -/
def isSpace (c : Char) : Bool :=
  let n := c.toNat
  n == 0x09 || n == 0x0A || n == 0x0B || n == 0x0C || n == 0x0D || n == 0x20 ||
  n == 0x85 || n == 0xA0 || n == 0x1680 || (0x2000 ≤ n && n ≤ 0x200A) ||
  n == 0x2028 || n == 0x2029 || n == 0x202F || n == 0x205F || n == 0x3000

/-- Scan of `strings.Fields`: `cur` is the field being read, in reverse. -/
def fieldsAux : List Char → List Char → List String
  | [], cur => if cur.isEmpty then [] else [String.mk cur.reverse]
  | c :: cs, cur =>
    if isSpace c then
      (if cur.isEmpty then fieldsAux cs [] else String.mk cur.reverse :: fieldsAux cs [])
    else fieldsAux cs (c :: cur)

/-- Go `strings.Fields`: the maximal runs of non-space characters, in order. -/
def Fields (s : String) : List String :=
  fieldsAux s.data []

/-! ## `strconv.ParseUint` -/

/-- The two errors of `strconv.ParseUint`. -/
inductive NumError where
  | ErrSyntax
  | ErrRange
  deriving DecidableEq

/-- Digit value of a character in `strconv.ParseUint`: decimal digits and ASCII
letters (either case, value 10 to 35); `none` for any other character. -/
def digitVal (c : Char) : Option Nat :=
  let n := c.toNat
  if 0x30 ≤ n ∧ n ≤ 0x39 then some (n - 0x30)
  else if 0x61 ≤ n ∧ n ≤ 0x7A then some (n - 0x61 + 10)
  else if 0x41 ≤ n ∧ n ≤ 0x5A then some (n - 0x41 + 10)
  else none

/-- Largest `uint64`. -/
def maxUint64 : Nat := 2 ^ 64 - 1

/-- Digit loop of `strconv.ParseUint(s, base, 64)`. A bad digit ends the loop with
value 0 and `ErrSyntax`; an overflow ends it with `maxUint64` and `ErrRange`. -/
def parseUintLoop (base : Nat) : List Char → Nat → Nat × Option NumError
  | [], n => (n, none)
  | c :: cs, n =>
    match digitVal c with
    | none => (0, some NumError.ErrSyntax)
    | some d =>
      if d ≥ base then (0, some NumError.ErrSyntax)
      else if n ≥ maxUint64 / base + 1 then (maxUint64, some NumError.ErrRange)
      else if n * base + d > maxUint64 then (maxUint64, some NumError.ErrRange)
      else parseUintLoop base cs (n * base + d)

/-- Go `strconv.ParseUint(s, 16, 64)`: the value and the error, if any. The empty
string is a syntax error. -/
def ParseUint16 (s : String) : Nat × Option NumError :=
  if s.data.isEmpty then (0, some NumError.ErrSyntax) else parseUintLoop 16 s.data 0

/-! ## The index file: `parseIndex` and `getIndexEntry` -/

/-- Status byte of a valid certificate, the byte of the letter V. -/
def StatusValid : Nat := 0x56

/-- Status byte of a revoked certificate, the byte of the letter R. -/
def StatusRevoked : Nat := 0x52

/-- One entry of the index file. -/
structure IndexEntry where
  Status : Nat
  Serial : Nat
  DistinguishedName : String
  deriving DecidableEq

/-- First byte of the UTF-8 encoding of a character. -/
def leadByte (c : Char) : Nat :=
  let n := c.toNat
  if n < 0x80 then n
  else if n < 0x800 then 0xC0 + n / 0x40
  else if n < 0x10000 then 0xE0 + n / 0x1000
  else 0xF0 + n / 0x40000

/-- Go index expression `ln[i]` on a slice of strings: panics when out of range. -/
def index (ln : List String) (i : Nat) : Outcome String :=
  match ln.get? i with
  | some f => Outcome.ret f
  | none => Outcome.panicked "index out of range"

/-- Go `[]byte(f)[0]`: the first byte of a string, a panic when it is empty. -/
def firstByte (f : String) : Outcome Nat :=
  match f.data with
  | c :: _ => Outcome.ret (leadByte c)
  | [] => Outcome.panicked "index out of range"

/-- Body of the scanning loop of `parseIndex` for one line: `ret (some ie)` when the
line appends the entry `ie`, `ret none` when the loop continues without appending. -/
def parseLine (text : String) : Outcome (Option IndexEntry) :=
  let ln := Fields text
  match index ln 0 with
  | Outcome.panicked e => Outcome.panicked e
  | Outcome.fail e => Outcome.fail e
  | Outcome.ret f0 =>
    match firstByte f0 with
    | Outcome.panicked e => Outcome.panicked e
    | Outcome.fail e => Outcome.fail e
    | Outcome.ret status =>
      if status = StatusValid then
        match index ln 2 with
        | Outcome.panicked e => Outcome.panicked e
        | Outcome.fail e => Outcome.fail e
        | Outcome.ret f2 =>
          match index ln 4 with
          | Outcome.panicked e => Outcome.panicked e
          | Outcome.fail e => Outcome.fail e
          | Outcome.ret f4 =>
            Outcome.ret (some ⟨status, (ParseUint16 f2).1, f4⟩)
      else if status = StatusRevoked then
        match index ln 3 with
        | Outcome.panicked e => Outcome.panicked e
        | Outcome.fail e => Outcome.fail e
        | Outcome.ret f3 =>
          match index ln 5 with
          | Outcome.panicked e => Outcome.panicked e
          | Outcome.fail e => Outcome.fail e
          | Outcome.ret f5 =>
            Outcome.ret (some ⟨status, (ParseUint16 f3).1, f5⟩)
      else Outcome.ret none

/-- The loop `for s.Scan()` of `parseIndex` over the remaining lines, `acc` being the
slice `ret` built so far. -/
def parseIndexLoop : List String → List IndexEntry → Outcome (List IndexEntry)
  | [], acc => Outcome.ret acc
  | text :: rest, acc =>
    match parseLine text with
    | Outcome.panicked e => Outcome.panicked e
    | Outcome.fail e => Outcome.fail e
    | Outcome.ret none => parseIndexLoop rest acc
    | Outcome.ret (some ie) => parseIndexLoop rest (acc ++ [ie])

/-- Go `parseIndex`. The argument is the index file as `os.Open` and `bufio.Scanner`
present it: `none` when the file cannot be opened, otherwise the lines the scanner
yields, in order, without their line terminators. -/
def parseIndex (file : Option (List String)) : Outcome (List IndexEntry) :=
  match file with
  | none => Outcome.fail "Could not open index file"
  | some lines => parseIndexLoop lines []

/-- The loop of `getIndexEntry`: the first entry whose serial is `s`. -/
def findEntry (s : Nat) : List IndexEntry → Outcome IndexEntry
  | [] => Outcome.fail "Serial not found"
  | ent :: rest => if ent.Serial = s then Outcome.ret ent else findEntry s rest

/-- Go `getIndexEntry`. -/
def getIndexEntry (file : Option (List String)) (s : Nat) : Outcome IndexEntry :=
  match parseIndex file with
  | Outcome.panicked e => Outcome.panicked e
  | Outcome.fail e => Outcome.fail e
  | Outcome.ret ents => findEntry s ents

/-! ## `bytes.Buffer` and `base64.StdEncoding.DecodeString` -/

/-- Go `bytes.Buffer`, as the list of its unread bytes. -/
abbrev Buffer := List Nat

/-- Go `(*bytes.Buffer).ReadFrom`: appends everything read from the reader. -/
def Buffer.ReadFrom (b : Buffer) (body : List Nat) : Buffer :=
  b ++ body

/-- Go `(*bytes.Buffer).Read(p)`: moves up to `len(p)` unread bytes of the buffer into
`p`. The result is the buffer afterwards and the contents of `p` afterwards. -/
def Buffer.Read (b : Buffer) (p : List Nat) : Buffer × List Nat :=
  (b.drop p.length, b.take p.length ++ p.drop (min b.length p.length))

/-- Go `(*bytes.Buffer).Bytes`: the unread bytes. -/
def Buffer.Bytes (b : Buffer) : List Nat :=
  b

/-- Value of a character in the standard base64 alphabet. -/
def b64Val (c : Char) : Option Nat :=
  let n := c.toNat
  if 0x41 ≤ n ∧ n ≤ 0x5A then some (n - 0x41)
  else if 0x61 ≤ n ∧ n ≤ 0x7A then some (n - 0x61 + 26)
  else if 0x30 ≤ n ∧ n ≤ 0x39 then some (n - 0x30 + 52)
  else if n = 0x2B then some 62
  else if n = 0x2F then some 63
  else none

/-- Quanta of `base64.StdEncoding.Decode` over input from which carriage returns and
line feeds have been removed: four characters give three bytes; a quantum padded
with one or two `=` gives two bytes or one and ends the decoding; a corrupt quantum
ends the decoding and gives no byte. -/
def decodeQuanta : Nat → List Char → List Nat
  | 0, _ => []
  | _ + 1, [] => []
  | fuel + 1, c0 :: c1 :: c2 :: c3 :: rest =>
    match b64Val c0, b64Val c1 with
    | some v0, some v1 =>
      match b64Val c2 with
      | some v2 =>
        match b64Val c3 with
        | some v3 =>
          let q := v0 * 262144 + v1 * 4096 + v2 * 64 + v3
          (q / 65536) :: (q / 256 % 256) :: (q % 256) :: decodeQuanta fuel rest
        | none =>
          if c3 = '=' then
            let q := v0 * 262144 + v1 * 4096 + v2 * 64
            [q / 65536, q / 256 % 256]
          else []
      | none =>
        if c2 = '=' ∧ c3 = '=' then [(v0 * 262144 + v1 * 4096) / 65536] else []
    | _, _ => []
  | _ + 1, _ => []

/-- Go `base64.StdEncoding.DecodeString` with its error discarded: the bytes decoded
before the first corrupt quantum. -/
def DecodeString (s : String) : List Nat :=
  let cs := s.data.filter (fun c => c ≠ '\n' ∧ c ≠ '\r')
  decodeQuanta cs.length cs

/-- Character of a six-bit value in the standard base64 alphabet. -/
def b64Char (v : Nat) : Char :=
  if v < 26 then Char.ofNat (0x41 + v)
  else if v < 52 then Char.ofNat (0x61 + (v - 26))
  else if v < 62 then Char.ofNat (0x30 + (v - 52))
  else if v = 62 then '+'
  else '/'

/-- Quanta of `base64.StdEncoding.Encode`: three bytes give four characters, a final
group of one or two bytes is padded with `=`. -/
def encodeQuanta : List Nat → List Char
  | [] => []
  | [a] => [b64Char (a / 4), b64Char (a % 4 * 16), '=', '=']
  | [a, b] => [b64Char (a / 4), b64Char (a % 4 * 16 + b / 16), b64Char (b % 16 * 4), '=']
  | a :: b :: c :: rest =>
    b64Char (a / 4) :: b64Char (a % 4 * 16 + b / 16) :: b64Char (b % 16 * 4 + c / 64)
      :: b64Char (c % 64) :: encodeQuanta rest

/-- Go `base64.StdEncoding.EncodeToString`. -/
def EncodeToString (bs : List Nat) : String :=
  String.mk (encodeQuanta bs)

/-! ## `time.Time` and `time.Location` -/

/-- Go `time.Time` as an instant: seconds since January 1, year 1, 00:00:00 UTC and
nanoseconds within the second. The location a Go `Time` carries is passed alongside
where the calendar is consulted; in `verify` it is `time.Local` throughout. -/
structure Time where
  sec : Int
  nsec : Nat
  deriving DecidableEq

/-- Go `time.Minute`, in nanoseconds. -/
def Minute : Int := 60 * 1000000000

/-- Seconds from January 1, year 1 to the Unix epoch (`unixToInternal`). -/
def unixToInternal : Int := 62135596800

/-- Seconds from the absolute epoch of package time (January 1 of
`absoluteZeroYear`) to January 1, year 1 (`internalToAbsolute`). -/
def internalToAbsolute : Int := 9223371966579724800

/-- The year of the absolute epoch of package time. -/
def absoluteZeroYear : Int := -292277022399

/-- Nanoseconds since the zero time. -/
def Time.nanos (t : Time) : Int :=
  t.sec * 1000000000 + t.nsec

/-- Go `Time.IsZero`. -/
def Time.IsZero (t : Time) : Bool :=
  t.sec == 0 && t.nsec == 0

/-- Go `Time.Before`. -/
def Time.Before (t u : Time) : Bool :=
  decide (t.nanos < u.nanos)

/-- Go `time.Unix(sec, nsec)` for a clock reading at or after the Unix epoch. -/
def Time.ofUnix (sec nsec : Nat) : Time :=
  ⟨(sec : Int) + unixToInternal, nsec⟩

/-- Go `Time.Truncate(d)`: `t` rounded down to a multiple of `d` since the zero
time; `t` itself when `d ≤ 0`. -/
def Time.Truncate (t : Time) (d : Int) : Time :=
  if d ≤ 0 then t
  else
    let n := t.nanos - t.nanos % d
    ⟨n / 1000000000, (n % 1000000000).toNat⟩

/-- Go `isLeap`. -/
def isLeap (year : Int) : Bool :=
  year % 4 == 0 && (year % 100 != 0 || year % 400 == 0)

/-- Go `daysBefore[i]`: days in a non-leap year before month `i + 1`. -/
def daysBefore (i : Nat) : Nat :=
  match i with
  | 0 => 0
  | 1 => 31
  | 2 => 59
  | 3 => 90
  | 4 => 120
  | 5 => 151
  | 6 => 181
  | 7 => 212
  | 8 => 243
  | 9 => 273
  | 10 => 304
  | 11 => 334
  | _ => 365

/-- Go `daysSinceEpoch`: days from the absolute epoch to January 1 of `year`. -/
def daysSinceEpoch (year : Int) : Nat :=
  let y := (year - absoluteZeroYear).toNat
  let n400 := y / 400
  let y1 := y - 400 * n400
  let n100 := y1 / 100
  let y2 := y1 - 100 * n100
  let n4 := y2 / 4
  let y3 := y2 - 4 * n4
  146097 * n400 + 36524 * n100 + 1461 * n4 + 365 * y3

/-- First half of Go `absDate`: the year and the zero-based day of the year of a day
counted from the absolute epoch. -/
def absYear (days : Nat) : Int × Nat :=
  let n400 := days / 146097
  let d1 := days - 146097 * n400
  let n100 := d1 / 36524
  let n100 := n100 - n100 / 4
  let d2 := d1 - 36524 * n100
  let n4 := d2 / 1461
  let d3 := d2 - 1461 * n4
  let n1 := d3 / 365
  let n1 := n1 - n1 / 4
  let yday := d3 - 365 * n1
  (((400 * n400 + 100 * n100 + 4 * n4 + n1 : Nat) : Int) + absoluteZeroYear, yday)

/-- Second half of Go `absDate`: month (1 to 12) and day of the month of the
zero-based day `yday` of a year. -/
def monthDay (leap : Bool) (yday : Nat) : Nat × Nat :=
  if leap ∧ yday = 59 then (2, 29)
  else
    let day := if leap ∧ yday > 59 then yday - 1 else yday
    let month := day / 31
    let last := daysBefore (month + 1)
    if day ≥ last then (month + 2, day - last + 1)
    else (month + 1, day - daysBefore month + 1)

/-- Go `norm(hi, lo, base)`: carries `lo` into `hi` so that `0 ≤ lo < base`. -/
def norm (hi lo base : Int) : Int × Int :=
  let p : Int × Int :=
    if lo < 0 then
      let n := (-lo - 1) / base + 1
      (hi - n, lo + n * base)
    else (hi, lo)
  if p.2 ≥ base then
    let n := p.2 / base
    (p.1 + n, p.2 - n * base)
  else p

/-- The day count of Go `time.Date`: days from the absolute epoch to day `day` of
month `month` (1 to 12) of `year`; `day` may lie outside the month. -/
def dateDays (year month day : Int) : Int :=
  (daysSinceEpoch year : Int) + (daysBefore (month - 1).toNat : Int)
    + (if isLeap year = true ∧ month ≥ 3 then 1 else 0) + (day - 1)

/-- Result of Go `(*Location).lookup`: the zone in use at an instant, as its offset
in seconds east of UTC and the Unix times between which that zone is in use. -/
structure ZoneSpan where
  offset : Int
  start : Int
  stop : Int
  deriving DecidableEq

/-- Go `*time.Location`: the zone in use at each Unix time. Offsets are 32-bit, as
they are in the time zone files from which `time.Local` is loaded. -/
structure Location where
  lookup : Int → ZoneSpan
  offsetRange : ∀ u, -2147483648 ≤ (lookup u).offset ∧ (lookup u).offset ≤ 2147483647

/-- Go `time.UTC`. -/
def UTC : Location :=
  ⟨fun _ => ⟨0, -9223372036854775808, 9223372036854775807⟩,
    fun _ => by
      dsimp only
      decide⟩

/-- The offset by which Go `time.Date` turns a wall-clock reading into an instant:
`unix` is the reading taken as if it were UTC; the zone found there is used when the
adjusted time lies in it, otherwise the zone found at the adjusted time. -/
def Location.offsetAt (l : Location) (unix : Int) : Int :=
  let z := l.lookup unix
  if z.offset ≠ 0 then
    let utc := unix - z.offset
    if utc < z.start ∨ utc ≥ z.stop then (l.lookup utc).offset else z.offset
  else z.offset

/-- Go `time.Date(year, month, day, hour, min, sec, nsec, loc)`. -/
def Date (year month day hour min sec nsec : Int) (loc : Location) : Time :=
  let ym := norm year (month - 1) 12
  let sn := norm sec nsec 1000000000
  let ms := norm min sn.1 60
  let hm := norm hour ms.1 60
  let dh := norm day hm.1 24
  let d := dateDays ym.1 (ym.2 + 1) dh.1
  let abs : Int := d * 86400 + (dh.2 * 3600 + hm.2 * 60 + ms.2)
  let unix : Int := abs - internalToAbsolute - unixToInternal
  ⟨unix - loc.offsetAt unix + unixToInternal, sn.2.toNat⟩

/-- Go `Time.abs` for a time in location `loc`: seconds of the wall clock since the
absolute epoch. -/
def Time.abs (t : Time) (loc : Location) : Nat :=
  (t.sec + (loc.lookup (t.sec - unixToInternal)).offset + internalToAbsolute).toNat

/-- Go `Time.AddDate(years, months, days)` for a time in location `loc`: the date and
the clock of `t` are read in `loc`, the date is shifted, and `time.Date` turns the
result into an instant of `loc`. -/
def Time.AddDate (t : Time) (loc : Location) (years months days : Int) : Time :=
  let a := t.abs loc
  let yd := absYear (a / 86400)
  let md := monthDay (isLeap yd.1) yd.2
  let s := a % 86400
  let hour := s / 3600
  let min := (s - hour * 3600) / 60
  let sec := s - hour * 3600 - min * 60
  Date (yd.1 + years) ((md.1 : Int) + months) ((md.2 : Int) + days) hour min sec t.nsec loc

/-! ## Library values and the environment -/

/-- Go `*x509.Certificate`, reduced to its DER bytes. -/
structure Certificate where
  Raw : List Nat
  deriving DecidableEq

/-- Value returned by `x509.ParsePKCS8PrivateKey`: the key material and whether the
dynamic type of the key implements `crypto.Signer`. -/
structure PrivateKey where
  der : List Nat
  signer : Bool
  deriving DecidableEq

namespace ocsp

/-- Go `ocsp.Good`. -/
def Good : Nat := 0

/-- Go `ocsp.Revoked`. -/
def Revoked : Nat := 1

/-- Go `ocsp.Unknown`. -/
def Unknown : Nat := 2

/-- Go `ocsp.Unspecified`, a revocation reason. -/
def Unspecified : Nat := 0

/-- Go `ocsp.Request`; `verify` reads only the serial number, a `*big.Int`. -/
structure Request where
  SerialNumber : Int
  deriving DecidableEq

/-- Go `ocsp.Response`, the fields that `verify` sets in its template. -/
structure Response where
  Status : Nat
  SerialNumber : Int
  Certificate : Option Certificate
  RevocationReason : Nat
  RevokedAt : Time
  ThisUpdate : Time
  NextUpdate : Time
  ExtraExtensions : List (List Nat)
  deriving DecidableEq

end ocsp

/-- Go `(*big.Int).Uint64`: the low 64 bits of the absolute value. -/
def Uint64 (x : Int) : Nat :=
  x.natAbs % 2 ^ 64

/-- The world a call runs in: the file system, the system clock and the library
routines of `encoding/pem`, `crypto/x509` and `golang.org/x/crypto/ocsp`.
`openIndex` is `os.Open` followed by `bufio.Scanner`: `none` when the file cannot
be opened, otherwise its lines. `pemDecode` gives the `Bytes` of the block found by
`pem.Decode`, `none` when `pem.Decode` returns a nil block. `nowSec` and `nowNsec`
are the reading of `time.Now()` as Unix time, and `Local` is `time.Local`, the
location of that reading. -/
structure Env where
  openIndex : String → Option (List String)
  ReadFile : String → Except String (List Nat)
  pemDecode : List Nat → Option (List Nat)
  ParseCertificate : List Nat → Except String Certificate
  ParsePKCS8PrivateKey : List Nat → Except String PrivateKey
  ParseRequest : List Nat → Except String ocsp.Request
  CreateResponse : Option Certificate → Option Certificate → ocsp.Response → PrivateKey →
    Except String (List Nat)
  nowSec : Nat
  nowNsec : Nat
  Local : Location

/-! ## The responder -/

/-- Go `OCSPResponder`. -/
structure OCSPResponder where
  IndexFile : String
  RespKeyFile : String
  RespCertFile : String
  CaCertFile : String
  Strict : Bool
  Port : Int
  Address : String
  Ssl : Bool
  CaCert : Option Certificate
  RespCert : Option Certificate
  deriving DecidableEq

/-- Go `Responder()`: the responder with its default settings. -/
def Responder : OCSPResponder :=
  { IndexFile := "index.txt", RespKeyFile := "responder.key", RespCertFile := "responder.crt",
    CaCertFile := "ca.crt", Strict := false, Port := 8888, Address := "", Ssl := false,
    CaCert := none, RespCert := none }

/-- Go `parseCertFile`. `block.Bytes` on a nil block is a nil-pointer panic. -/
def parseCertFile (env : Env) (filename : String) : Outcome Certificate :=
  match env.ReadFile filename with
  | Except.error e => Outcome.fail e
  | Except.ok ct =>
    match env.pemDecode ct with
    | none => Outcome.panicked "nil pointer dereference"
    | some bytes =>
      match env.ParseCertificate bytes with
      | Except.error e => Outcome.fail e
      | Except.ok cert => Outcome.ret cert

/-- Go `parseKeyFile`. `block.Bytes` on a nil block is a nil-pointer panic. -/
def parseKeyFile (env : Env) (filename : String) : Outcome PrivateKey :=
  match env.ReadFile filename with
  | Except.error e => Outcome.fail e
  | Except.ok kt =>
    match env.pemDecode kt with
    | none => Outcome.panicked "nil pointer dereference"
    | some bytes =>
      match env.ParsePKCS8PrivateKey bytes with
      | Except.error e => Outcome.fail e
      | Except.ok key => Outcome.ret key

/-- The composite literal `rtemplate` of `verify`, from the classified status, the
request, the responder certificate and the truncated clock reading `now`, a time in
location `loc`. -/
def rtemplate (status : Nat) (req : ocsp.Request) (respCert : Option Certificate)
    (loc : Location) (now : Time) : ocsp.Response :=
  { Status := status
    SerialNumber := req.SerialNumber
    Certificate := respCert
    RevocationReason := ocsp.Unspecified
    RevokedAt := now.AddDate loc 0 (-1) 0
    ThisUpdate := now.AddDate loc 0 (-2) 0
    NextUpdate := now.AddDate loc 0 30 0
    ExtraExtensions := [] }

/-- Go `verify` up to and including the construction of `rtemplate`: the template and
the signing key that are handed to `ocsp.CreateResponse`. -/
def verifyTemplate (env : Env) (self : OCSPResponder) (rawreq : List Nat) :
    Outcome (ocsp.Response × PrivateKey) :=
  match env.ParseRequest rawreq with
  | Except.error e => Outcome.fail e
  | Except.ok req =>
    match getIndexEntry (env.openIndex self.IndexFile) (Uint64 req.SerialNumber) with
    | Outcome.panicked e => Outcome.panicked e
    | Outcome.fail e => Outcome.fail e
    | Outcome.ret ent =>
      let status := if ent.Status = StatusRevoked then ocsp.Revoked else ocsp.Good
      match parseKeyFile env self.RespKeyFile with
      | Outcome.panicked e => Outcome.panicked e
      | Outcome.fail e => Outcome.fail e
      | Outcome.ret keyi =>
        if keyi.signer then
          let now := (Time.ofUnix env.nowSec env.nowNsec).Truncate Minute
          Outcome.ret (rtemplate status req self.RespCert env.Local now, keyi)
        else Outcome.fail "Could not make key a signer..."

/-- Go `verify`: the signed response bytes for a DER-encoded request. -/
def verify (env : Env) (self : OCSPResponder) (rawreq : List Nat) : Outcome (List Nat) :=
  match verifyTemplate env self rawreq with
  | Outcome.panicked e => Outcome.panicked e
  | Outcome.fail e => Outcome.fail e
  | Outcome.ret (tpl, key) =>
    match env.CreateResponse self.CaCert self.RespCert tpl key with
    | Except.error e => Outcome.fail e
    | Except.ok resp => Outcome.ret resp

/-! ## The HTTP handler -/

/-- The parts of Go `*http.Request` the handler reads: the method, the value of the
`Content-Type` header (empty when absent), `URL.Path` and the body. -/
structure HttpRequest where
  Method : String
  ContentType : String
  Path : String
  Body : List Nat
  deriving DecidableEq

/-- Go `http.ResponseWriter` as the handler uses it: the `Content-Type` response
header, the status code once the header is written, and the body written. -/
structure ResponseWriter where
  ContentType : Option String
  StatusCode : Option Nat
  Body : List Nat
  deriving DecidableEq

/-- Go `http.StatusBadRequest`. -/
def StatusBadRequest : Nat := 400

/-- Go `http.StatusOK`. -/
def StatusOK : Nat := 200

/-- Go `ResponseWriter.WriteHeader`: fixes the status code unless already written. -/
def ResponseWriter.WriteHeader (w : ResponseWriter) (code : Nat) : ResponseWriter :=
  match w.StatusCode with
  | none => { w with StatusCode := some code }
  | some _ => w

/-- Go `ResponseWriter.Write`: writes the header with status 200 when none was
written, then appends to the body. -/
def ResponseWriter.Write (w : ResponseWriter) (data : List Nat) : ResponseWriter :=
  let w1 := w.WriteHeader StatusOK
  { w1 with Body := w1.Body ++ data }

/-- The status code the client receives: 200 when the handler wrote none. -/
def ResponseWriter.finalStatus (w : ResponseWriter) : Nat :=
  w.StatusCode.getD StatusOK

/-- Go slice expression `s[1:]` on a string: a panic when `s` is empty. -/
def sliceFrom1 (s : String) : Outcome String :=
  match s.data with
  | [] => Outcome.panicked "slice bounds out of range"
  | _ :: rest => Outcome.ret (String.mk rest)

/-- The `switch r.Method` statement of the handler: the bytes of the buffer `b`
afterwards, `none` when the method is unsupported and the handler returns. -/
def requestBytes (r : HttpRequest) : Outcome (Option (List Nat)) :=
  let b : Buffer := []
  if r.Method = "POST" then
    Outcome.ret (some (b.ReadFrom r.Body).Bytes)
  else if r.Method = "GET" then
    match sliceFrom1 r.Path with
    | Outcome.panicked e => Outcome.panicked e
    | Outcome.fail e => Outcome.fail e
    | Outcome.ret seg =>
      let gd := DecodeString seg
      Outcome.ret (some (b.Read gd).1.Bytes)
  else Outcome.ret none

/-- The function returned by Go `makeHandler`, run on request `r` with response
writer `w`: the response writer when the handler returns. -/
def makeHandler (env : Env) (self : OCSPResponder) (r : HttpRequest) (w : ResponseWriter) :
    Outcome ResponseWriter :=
  if self.Strict = true ∧ r.ContentType ≠ "application/ocsp-request" then Outcome.ret w
  else
    match requestBytes r with
    | Outcome.panicked e => Outcome.panicked e
    | Outcome.fail e => Outcome.fail e
    | Outcome.ret none => Outcome.ret w
    | Outcome.ret (some bytes) =>
      let w1 := { w with ContentType := some "application/ocsp-response" }
      match verify env self bytes with
      | Outcome.panicked e => Outcome.panicked e
      | Outcome.fail _ => Outcome.ret (w1.WriteHeader StatusBadRequest)
      | Outcome.ret resp => Outcome.ret (w1.Write resp)

/-- Response writer of a fresh exchange. -/
def ResponseWriter.fresh : ResponseWriter :=
  { ContentType := none, StatusCode := none, Body := [] }

/-! ## Start-up -/

/-- How Go `Serve` leaves the responder: `aborted` when it returns an error before the
handler is registered, `panicked` when it panics, `serving` when the handler of the
given responder is registered and `http.ListenAndServe` is called. The responder
carried by each constructor is the receiver afterwards. -/
inductive ServeResult where
  | aborted (e : String) (self : OCSPResponder)
  | panicked (e : String) (self : OCSPResponder)
  | serving (self : OCSPResponder)
  deriving DecidableEq

/-- Go `Serve`. -/
def Serve (env : Env) (self : OCSPResponder) : ServeResult :=
  match parseCertFile env self.CaCertFile with
  | Outcome.panicked e => ServeResult.panicked e self
  | Outcome.fail e => ServeResult.aborted e self
  | Outcome.ret cacert =>
    match parseCertFile env self.RespCertFile with
    | Outcome.panicked e => ServeResult.panicked e self
    | Outcome.fail e => ServeResult.aborted e self
    | Outcome.ret respcert =>
      ServeResult.serving { self with CaCert := some cacert, RespCert := some respcert }

/-! ## Sample environments -/

/-- Big-endian value of a byte string. -/
def beValue (bs : List Nat) : Nat :=
  bs.foldl (fun acc b => acc * 256 + b) 0

/-- A sample world. The index file holds one valid and one revoked certificate, the
three trust-material files decode, the key signs, a request is the big-endian bytes
of its serial number, and the response bytes are the status followed by the request
serial reduced modulo 256. The clock reads 2023-11-14 22:13:20 UTC and the local
time zone is UTC. -/
def sampleEnv : Env :=
  { openIndex := fun path =>
      if path = "index.txt" then
        some ["V 330101000000Z 1A2B unknown CN=alpha",
              "R 330101000000Z 240101000000Z 2C unknown CN=beta"]
      else none
    ReadFile := fun path =>
      if path = "ca.crt" then Except.ok [1]
      else if path = "responder.crt" then Except.ok [2]
      else if path = "responder.key" then Except.ok [3]
      else Except.error "no such file or directory"
    pemDecode := fun ct => some ct
    ParseCertificate := fun der => Except.ok ⟨der⟩
    ParsePKCS8PrivateKey := fun der => Except.ok ⟨der, true⟩
    ParseRequest := fun raw => Except.ok ⟨(beValue raw : Nat)⟩
    CreateResponse := fun _ _ tpl _ => Except.ok [tpl.Status, tpl.SerialNumber.natAbs % 256]
    nowSec := 1700000000
    nowNsec := 5
    Local := UTC }

/-- The sample world with the responder key file removed. -/
def sampleEnvNoKey : Env :=
  { sampleEnv with
    ReadFile := fun path =>
      if path = "ca.crt" then Except.ok [1]
      else if path = "responder.crt" then Except.ok [2]
      else Except.error "no such file or directory" }

/-- The responder that `Serve` leaves serving in the sample world. -/
def sampleResponder : OCSPResponder :=
  { Responder with CaCert := some ⟨[1]⟩, RespCert := some ⟨[2]⟩ }

/-- The sample world in which the responder key file decodes to a key whose type does
not implement `crypto.Signer`. -/
def sampleEnvBadKey : Env :=
  { sampleEnv with ParsePKCS8PrivateKey := fun der => Except.ok ⟨der, false⟩ }

/-- The sample world with the issuer certificate file removed. -/
def sampleEnvNoCaCert : Env :=
  { sampleEnv with
    ReadFile := fun path =>
      if path = "responder.crt" then Except.ok [2]
      else if path = "responder.key" then Except.ok [3]
      else Except.error "no such file or directory" }

/-- The template `verify` builds in the sample world for the revoked serial 0x2C: the
clock reading truncated to the minute is 2023-11-14 22:13:00 UTC. -/
def sampleTemplate : ocsp.Response :=
  rtemplate ocsp.Revoked ⟨0x2C⟩ (some ⟨[2]⟩) UTC ⟨63835596780, 0⟩

/-- A sample location: the zones of America/New_York from March 2023 to November
2026 (daylight time, UTC-4, from the second Sunday of March to the first Sunday of
November), Eastern Standard Time, UTC-5, outside these years. -/
def newYork : Location :=
  { lookup := fun u =>
      if u < 1678604400 then ⟨-18000, -9223372036854775808, 1678604400⟩
      else if u < 1699164000 then ⟨-14400, 1678604400, 1699164000⟩
      else if u < 1710054000 then ⟨-18000, 1699164000, 1710054000⟩
      else if u < 1730613600 then ⟨-14400, 1710054000, 1730613600⟩
      else if u < 1741503600 then ⟨-18000, 1730613600, 1741503600⟩
      else if u < 1762063200 then ⟨-14400, 1741503600, 1762063200⟩
      else if u < 1772953200 then ⟨-18000, 1762063200, 1772953200⟩
      else if u < 1793512800 then ⟨-14400, 1772953200, 1793512800⟩
      else ⟨-18000, 1793512800, 9223372036854775807⟩
    offsetRange := fun u => by
      dsimp only
      split_ifs <;> decide }

/-- The sample world with the local time zone of New York. -/
def sampleEnvNewYork : Env :=
  { sampleEnv with Local := newYork }

/-- The template `verify` builds in the sample world of New York for the revoked
serial 0x2C. -/
def sampleTemplateNewYork : ocsp.Response :=
  rtemplate ocsp.Revoked ⟨0x2C⟩ (some ⟨[2]⟩) newYork ⟨63835596780, 0⟩

/-- A sample location: the zones of Africa/Monrovia, 43 minutes 8 seconds west of
UTC until March 1919, 44 minutes 30 seconds west until 7 January 1972, UTC since. -/
def monrovia : Location :=
  { lookup := fun u =>
      if u < -1604359012 then ⟨-2588, -9223372036854775808, -1604359012⟩
      else if u < 63593070 then ⟨-2670, -1604359012, 63593070⟩
      else ⟨0, 63593070, 9223372036854775807⟩
    offsetRange := fun u => by
      dsimp only
      split_ifs <;> decide }

/-- The sample world with the local time zone of Monrovia and the clock reading
1972-02-01 12:00:30 UTC. -/
def sampleEnvMonrovia : Env :=
  { sampleEnv with Local := monrovia, nowSec := 65793630, nowNsec := 0 }

/-- The template `verify` builds in the sample world of Monrovia for the revoked
serial 0x2C: the clock reading truncated to the minute is 1972-02-01 12:00:00 UTC. -/
def sampleTemplateMonrovia : ocsp.Response :=
  rtemplate ocsp.Revoked ⟨0x2C⟩ (some ⟨[2]⟩) monrovia ⟨65793600 + 62135596800, 0⟩

/-- Whether the responder key file is unreadable, holds a PEM block whose bytes do
not parse as a PKCS#8 private key, or holds a key whose type does not implement
`crypto.Signer`. A file in which `pem.Decode` finds no block is not counted: there
`parseKeyFile` panics. -/
def keyFileUnusable (env : Env) (filename : String) : Bool :=
  match env.ReadFile filename with
  | Except.error _ => true
  | Except.ok kt =>
    match env.pemDecode kt with
    | none => false
    | some der =>
      match env.ParsePKCS8PrivateKey der with
      | Except.error _ => true
      | Except.ok key => !key.signer

/-- Whether a certificate file is unreadable or holds a PEM block whose bytes do not
parse as a certificate. A file in which `pem.Decode` finds no block is not counted:
there `parseCertFile` panics. -/
def certFileUnusable (env : Env) (filename : String) : Bool :=
  match env.ReadFile filename with
  | Except.error _ => true
  | Except.ok ct =>
    match env.pemDecode ct with
    | none => false
    | some der =>
      match env.ParseCertificate der with
      | Except.error _ => true
      | Except.ok _ => false

/-- Applies a function to the returned value of an outcome. -/
def Outcome.map {α β : Type} (f : α → β) : Outcome α → Outcome β
  | Outcome.ret a => Outcome.ret (f a)
  | Outcome.fail e => Outcome.fail e
  | Outcome.panicked e => Outcome.panicked e

/-! ## The calendar of package time -/

theorem isLeap_iff (y : Int) :
    isLeap y = true ↔ (y % 4 = 0 ∧ (y % 100 ≠ 0 ∨ y % 400 = 0)) := by
  simp [isLeap]

theorem absYear_core (days a d1 q100 n100 d2 n4 d3 q1 n1 yday : Nat)
    (ha : a = days / 146097) (hd1 : d1 = days - 146097 * a)
    (hq100 : q100 = d1 / 36524) (hn100 : n100 = q100 - q100 / 4)
    (hd2 : d2 = d1 - 36524 * n100) (hn4 : n4 = d2 / 1461) (hd3 : d3 = d2 - 1461 * n4)
    (hq1 : q1 = d3 / 365) (hn1 : n1 = q1 - q1 / 4) (hy : yday = d3 - 365 * n1) :
    n100 ≤ 3 ∧ n4 ≤ 24 ∧ n1 ≤ 3 ∧
    146097 * a + 36524 * n100 + 1461 * n4 + 365 * n1 + yday = days ∧
    (yday < 365 ∨ (yday = 365 ∧ n1 = 3 ∧ (n4 ≠ 24 ∨ n100 = 3))) := by
  have h1 : d1 < 146097 ∧ days = d1 + 146097 * a := by omega
  have h2 : q100 ≤ 4 := by omega
  have h3 : n100 ≤ 3 ∧ (q100 = 4 → n100 = 3) ∧ (q100 ≤ 3 → n100 = q100) := by omega
  have h4 : d2 ≤ 36524 ∧ (d2 = 36524 → n100 = 3) ∧ d1 = d2 + 36524 * n100 := by omega
  have h5 : n4 ≤ 24 := by omega
  have h6 : d3 ≤ 1460 ∧ d2 = d3 + 1461 * n4 ∧ (n4 = 24 ∧ d3 = 1460 → n100 = 3) := by omega
  have h7 : q1 ≤ 4 := by omega
  have h8 : n1 ≤ 3 ∧ (q1 = 4 → n1 = 3) ∧ (q1 ≤ 3 → n1 = q1) := by omega
  have h9 : yday ≤ 365 ∧ (yday = 365 → n1 = 3 ∧ d3 = 1460) ∧ d3 = yday + 365 * n1 := by omega
  omega

theorem daysSinceEpoch_cycles (a n100 n4 n1 : Nat) (h100 : n100 ≤ 3) (h4 : n4 ≤ 24)
    (h1 : n1 ≤ 3) :
    daysSinceEpoch (((400 * a + 100 * n100 + 4 * n4 + n1 : Nat) : Int) + absoluteZeroYear)
      = 146097 * a + 36524 * n100 + 1461 * n4 + 365 * n1 := by
  have e : ((((400 * a + 100 * n100 + 4 * n4 + n1 : Nat) : Int) + absoluteZeroYear)
      - absoluteZeroYear).toNat = 400 * a + 100 * n100 + 4 * n4 + n1 := by
    omega
  simp only [daysSinceEpoch, e]
  have q1 : (400 * a + 100 * n100 + 4 * n4 + n1) / 400 = a := by omega
  rw [q1]
  have q2 : 400 * a + 100 * n100 + 4 * n4 + n1 - 400 * a = 100 * n100 + 4 * n4 + n1 := by omega
  rw [q2]
  have q3 : (100 * n100 + 4 * n4 + n1) / 100 = n100 := by omega
  rw [q3]
  have q4 : 100 * n100 + 4 * n4 + n1 - 100 * n100 = 4 * n4 + n1 := by omega
  rw [q4]
  have q5 : (4 * n4 + n1) / 4 = n4 := by omega
  rw [q5]
  omega

theorem isLeap_cycles (a n100 n4 n1 : Nat) (h100 : n100 ≤ 3) (h4 : n4 ≤ 24) (h1 : n1 ≤ 3) :
    isLeap (((400 * a + 100 * n100 + 4 * n4 + n1 : Nat) : Int) + absoluteZeroYear) = true
      ↔ (n1 = 3 ∧ (n4 ≠ 24 ∨ n100 = 3)) := by
  rw [isLeap_iff]
  simp only [absoluteZeroYear]
  omega

theorem absYear_spec (days : Nat) :
    ((daysSinceEpoch (absYear days).1 : Nat) + (absYear days).2 = days) ∧
    (absYear days).2 < (if isLeap (absYear days).1 = true then 366 else 365) ∧
    absoluteZeroYear ≤ (absYear days).1 := by
  obtain ⟨a, ha⟩ : ∃ a, a = days / 146097 := ⟨_, rfl⟩
  obtain ⟨d1, hd1⟩ : ∃ d1, d1 = days - 146097 * a := ⟨_, rfl⟩
  obtain ⟨q100, hq100⟩ : ∃ q100, q100 = d1 / 36524 := ⟨_, rfl⟩
  obtain ⟨n100, hn100⟩ : ∃ n100, n100 = q100 - q100 / 4 := ⟨_, rfl⟩
  obtain ⟨d2, hd2⟩ : ∃ d2, d2 = d1 - 36524 * n100 := ⟨_, rfl⟩
  obtain ⟨n4, hn4⟩ : ∃ n4, n4 = d2 / 1461 := ⟨_, rfl⟩
  obtain ⟨d3, hd3⟩ : ∃ d3, d3 = d2 - 1461 * n4 := ⟨_, rfl⟩
  obtain ⟨q1, hq1⟩ : ∃ q1, q1 = d3 / 365 := ⟨_, rfl⟩
  obtain ⟨n1, hn1⟩ : ∃ n1, n1 = q1 - q1 / 4 := ⟨_, rfl⟩
  obtain ⟨yday, hy⟩ : ∃ yday, yday = d3 - 365 * n1 := ⟨_, rfl⟩
  have hA : absYear days
      = (((400 * a + 100 * n100 + 4 * n4 + n1 : Nat) : Int) + absoluteZeroYear, yday) := by
    subst ha hd1 hq100 hn100 hd2 hn4 hd3 hq1 hn1 hy
    rfl
  obtain ⟨h100, h4, h1, hsum, hyd⟩ :=
    absYear_core days a d1 q100 n100 d2 n4 d3 q1 n1 yday ha hd1 hq100 hn100 hd2 hn4 hd3 hq1 hn1 hy
  have hd := daysSinceEpoch_cycles a n100 n4 n1 h100 h4 h1
  have hl := isLeap_cycles a n100 n4 n1 h100 h4 h1
  rw [hA]
  clear hA ha hd1 hq100 hn100 hd2 hn4 hd3 hq1 hn1 hy
  refine ⟨?_, ?_, ?_⟩
  · show daysSinceEpoch _ + yday = days
    rw [hd]
    omega
  · show yday < _
    split_ifs with hh
    · omega
    · rcases hyd with h | ⟨_, h3, h5⟩
      · omega
      · exact absurd (hl.mpr ⟨h3, h5⟩) hh
  · show absoluteZeroYear ≤ _ + absoluteZeroYear
    omega

set_option maxRecDepth 100000 in
theorem monthDay_spec_all : ∀ leap : Bool, ∀ yd < 366, yd < (if leap = true then 366 else 365) →
    (1 ≤ (monthDay leap yd).1 ∧ (monthDay leap yd).1 ≤ 12 ∧ 1 ≤ (monthDay leap yd).2 ∧
      (monthDay leap yd).2 ≤ 31 ∧
      daysBefore ((monthDay leap yd).1 - 1)
        + (if leap = true ∧ (monthDay leap yd).1 ≥ 3 then 1 else 0)
        + ((monthDay leap yd).2 - 1) = yd) := by
  decide

theorem year_decomp (n : Nat) :
    ∃ a b d e, n = 400 * a + 100 * b + 4 * d + e ∧ b ≤ 3 ∧ d ≤ 24 ∧ e ≤ 3 :=
  ⟨n / 400, n % 400 / 100, n % 100 / 4, n % 4, by omega, by omega, by omega, by omega⟩

theorem dse_succ (y : Int) (hy : absoluteZeroYear ≤ y) :
    (daysSinceEpoch (y + 1) : Int) = daysSinceEpoch y + (if isLeap y = true then 366 else 365) := by
  obtain ⟨n, hn⟩ : ∃ n : Nat, y = (n : Int) + absoluteZeroYear :=
    ⟨(y - absoluteZeroYear).toNat, by omega⟩
  obtain ⟨a, b, d, e, hdec, hb, hd, he⟩ := year_decomp n
  subst hdec
  subst hn
  have hl := isLeap_cycles a b d e hb hd he
  have h0 := daysSinceEpoch_cycles a b d e hb hd he
  rw [h0]
  by_cases c1 : e < 3
  · have e1 : ((400 * a + 100 * b + 4 * d + e : Nat) : Int) + absoluteZeroYear + 1
        = ((400 * a + 100 * b + 4 * d + (e + 1) : Nat) : Int) + absoluteZeroYear := by
      push_cast; ring
    rw [e1, daysSinceEpoch_cycles a b d (e + 1) hb hd (by omega)]
    have hn : ¬ isLeap (((400 * a + 100 * b + 4 * d + e : Nat) : Int) + absoluteZeroYear) = true := by
      rw [hl]; omega
    rw [if_neg hn]
    push_cast; ring
  · have he3 : e = 3 := by omega
    subst he3
    by_cases c2 : d < 24
    · have e1 : ((400 * a + 100 * b + 4 * d + 3 : Nat) : Int) + absoluteZeroYear + 1
          = ((400 * a + 100 * b + 4 * (d + 1) + 0 : Nat) : Int) + absoluteZeroYear := by
        push_cast; ring
      rw [e1, daysSinceEpoch_cycles a b (d + 1) 0 hb (by omega) (by omega)]
      have hp : isLeap (((400 * a + 100 * b + 4 * d + 3 : Nat) : Int) + absoluteZeroYear) = true := by
        rw [hl]; omega
      rw [if_pos hp]
      push_cast; ring
    · have hd24 : d = 24 := by omega
      subst hd24
      by_cases c3 : b < 3
      · have e1 : ((400 * a + 100 * b + 4 * 24 + 3 : Nat) : Int) + absoluteZeroYear + 1
            = ((400 * a + 100 * (b + 1) + 4 * 0 + 0 : Nat) : Int) + absoluteZeroYear := by
          push_cast; ring
        rw [e1, daysSinceEpoch_cycles a (b + 1) 0 0 (by omega) (by omega) (by omega)]
        have hn : ¬ isLeap (((400 * a + 100 * b + 4 * 24 + 3 : Nat) : Int) + absoluteZeroYear)
            = true := by
          rw [hl]; omega
        rw [if_neg hn]
        push_cast; ring
      · have hb3 : b = 3 := by omega
        subst hb3
        have e1 : ((400 * a + 100 * 3 + 4 * 24 + 3 : Nat) : Int) + absoluteZeroYear + 1
            = ((400 * (a + 1) + 100 * 0 + 4 * 0 + 0 : Nat) : Int) + absoluteZeroYear := by
          push_cast; ring
        rw [e1, daysSinceEpoch_cycles (a + 1) 0 0 0 (by omega) (by omega) (by omega)]
        have hp : isLeap (((400 * a + 100 * 3 + 4 * 24 + 3 : Nat) : Int) + absoluteZeroYear)
            = true := by
          rw [hl]; omega
        rw [if_pos hp]
        push_cast; ring

theorem dateDays_roundtrip (days : Nat) :
    dateDays (absYear days).1 (monthDay (isLeap (absYear days).1) (absYear days).2).1
      (monthDay (isLeap (absYear days).1) (absYear days).2).2 = days ∧
    1 ≤ (monthDay (isLeap (absYear days).1) (absYear days).2).1 ∧
    (monthDay (isLeap (absYear days).1) (absYear days).2).1 ≤ 12 ∧
    1 ≤ (monthDay (isLeap (absYear days).1) (absYear days).2).2 := by
  obtain ⟨hsum, hyd, _⟩ := absYear_spec days
  generalize (absYear days).1 = yr at *
  generalize (absYear days).2 = yd at *
  have hyd2 : yd < 366 := by split_ifs at hyd <;> omega
  obtain ⟨m1, m12, d1, _, hmd⟩ := monthDay_spec_all (isLeap yr) yd hyd2 hyd
  generalize (monthDay (isLeap yr) yd).1 = m at *
  generalize (monthDay (isLeap yr) yd).2 = dd at *
  refine ⟨?_, m1, m12, d1⟩
  simp only [dateDays]
  have e : ((m : Int) - 1).toNat = m - 1 := by omega
  rw [e]
  clear hyd
  cases hL : isLeap yr
  · simp only [hL, false_and, if_false, Bool.false_eq_true] at hmd ⊢
    omega
  · simp only [hL, true_and] at hmd ⊢
    split_ifs at hmd ⊢ <;> omega

theorem dateDays_minus2 (y : Int) (hy : absoluteZeroYear < y) (m : Nat) (h1 : 1 ≤ m)
    (h12 : m ≤ 12) (dd : Int) :
    dateDays (norm y ((m : Int) + (-2) - 1) 12).1 ((norm y ((m : Int) + (-2) - 1) 12).2 + 1) dd
        + 59 ≤ dateDays y m dd ∧
    dateDays y m dd ≤
      dateDays (norm y ((m : Int) + (-2) - 1) 12).1 ((norm y ((m : Int) + (-2) - 1) 12).2 + 1) dd
        + 62 := by
  have s1 := dse_succ (y - 1) (by omega)
  rw [sub_add_cancel] at s1
  interval_cases m <;> simp [norm, daysBefore, dateDays] <;> split_ifs at * <;> omega

theorem dateDays_minus1 (y : Int) (hy : absoluteZeroYear < y) (m : Nat) (h1 : 1 ≤ m)
    (h12 : m ≤ 12) (dd : Int) :
    dateDays (norm y ((m : Int) + (-1) - 1) 12).1 ((norm y ((m : Int) + (-1) - 1) 12).2 + 1) dd
        + 28 ≤ dateDays y m dd ∧
    dateDays y m dd ≤
      dateDays (norm y ((m : Int) + (-1) - 1) 12).1 ((norm y ((m : Int) + (-1) - 1) 12).2 + 1) dd
        + 31 := by
  have s1 := dse_succ (y - 1) (by omega)
  rw [sub_add_cancel] at s1
  interval_cases m <;> simp [norm, daysBefore, dateDays] <;> split_ifs at * <;> omega

theorem dateDays_plus30 (y : Int) (hy : absoluteZeroYear < y) (m : Nat) (h1 : 1 ≤ m)
    (h12 : m ≤ 12) (dd : Int) :
    dateDays y m dd + 911 ≤
      dateDays (norm y ((m : Int) + 30 - 1) 12).1 ((norm y ((m : Int) + 30 - 1) 12).2 + 1) dd := by
  have s1 := dse_succ y (by omega)
  have s2 := dse_succ (y + 1) (by omega)
  have s3 := dse_succ (y + 2) (by omega)
  have e2 : y + 1 + 1 = y + 2 := by ring
  have e3 : y + 2 + 1 = y + 3 := by ring
  rw [e2] at s2
  rw [e3] at s3
  interval_cases m <;> simp [norm, daysBefore, dateDays] <;> split_ifs at * <;> omega

theorem norm_id (hi lo base : Int) (h0 : 0 ≤ lo) (h1 : lo < base) :
    norm hi lo base = (hi, lo) := by
  simp [norm, not_lt.mpr h0, not_le.mpr h1]

theorem Date_inrange (year month day hour min sec : Int) (loc : Location) (hh0 : 0 ≤ hour)
    (hh1 : hour < 24) (hm0 : 0 ≤ min) (hm1 : min < 60) (hs0 : 0 ≤ sec) (hs1 : sec < 60) :
    Date year month day hour min sec 0 loc
      = ⟨(dateDays (norm year (month - 1) 12).1 ((norm year (month - 1) 12).2 + 1) day * 86400
            + (hour * 3600 + min * 60 + sec) - internalToAbsolute - unixToInternal)
          - loc.offsetAt
              (dateDays (norm year (month - 1) 12).1 ((norm year (month - 1) 12).2 + 1) day
                  * 86400
                + (hour * 3600 + min * 60 + sec) - internalToAbsolute - unixToInternal)
          + unixToInternal, 0⟩ := by
  simp only [Date]
  rw [norm_id sec 0 1000000000 (le_refl 0) (by norm_num)]
  simp only []
  rw [norm_id min sec 60 hs0 hs1]
  simp only []
  rw [norm_id hour min 60 hm0 hm1]
  simp only []
  rw [norm_id day hour 24 hh0 hh1]
  simp

/-- The offset `time.Date` applies is the offset of the location at some instant. -/
theorem offsetAt_lookup (l : Location) (u : Int) :
    ∃ x, l.offsetAt u = (l.lookup x).offset := by
  simp only [Location.offsetAt]
  split_ifs
  · exact ⟨_, rfl⟩
  · exact ⟨_, rfl⟩
  · exact ⟨_, rfl⟩

theorem daysSinceEpoch_zero : daysSinceEpoch absoluteZeroYear = 0 := by
  decide

/-- Shifting a whole-second time of location `loc` by `k` months moves its wall
clock by a whole number of days; the instant moves by that and by the difference
between the offset in use at the time and an offset of the location. -/
theorem AddDate_months (t : Time) (loc : Location) (hns : t.nsec = 0)
    (ht : 366 * 86400
      ≤ t.sec + (loc.lookup (t.sec - unixToInternal)).offset + internalToAbsolute) :
    ∃ (yr : Int) (m dd : Nat), absoluteZeroYear < yr ∧ 1 ≤ m ∧ m ≤ 12 ∧
      ∀ k : Int, ∃ x : Int, t.AddDate loc 0 k 0
        = ⟨t.sec + (loc.lookup (t.sec - unixToInternal)).offset
            + 86400 * (dateDays (norm yr ((m : Int) + k - 1) 12).1
              ((norm yr ((m : Int) + k - 1) 12).2 + 1) dd - dateDays yr m dd)
            - (loc.lookup x).offset, 0⟩ := by
  obtain ⟨a, ha⟩ : ∃ a : Nat, a = t.abs loc := ⟨_, rfl⟩
  have hasec : (a : Int)
      = t.sec + (loc.lookup (t.sec - unixToInternal)).offset + internalToAbsolute := by
    rw [ha]; simp only [Time.abs]; omega
  have hA : ∀ k : Int, t.AddDate loc 0 k 0
      = Date ((absYear (a / 86400)).1 + 0)
          (((monthDay (isLeap (absYear (a / 86400)).1) (absYear (a / 86400)).2).1 : Int) + k)
          (((monthDay (isLeap (absYear (a / 86400)).1) (absYear (a / 86400)).2).2 : Int) + 0)
          ((a % 86400 / 3600 : Nat) : Int)
          (((a % 86400 - a % 86400 / 3600 * 3600) / 60 : Nat) : Int)
          ((a % 86400 - a % 86400 / 3600 * 3600
            - (a % 86400 - a % 86400 / 3600 * 3600) / 60 * 60 : Nat) : Int) 0 loc := by
    intro k
    simp only [Time.AddDate, ← ha, hns]
    rfl
  obtain ⟨hrt, m1, m12, d1⟩ := dateDays_roundtrip (a / 86400)
  obtain ⟨hsum, hyd, hz⟩ := absYear_spec (a / 86400)
  refine ⟨(absYear (a / 86400)).1, (monthDay (isLeap (absYear (a / 86400)).1) (absYear (a / 86400)).2).1,
    (monthDay (isLeap (absYear (a / 86400)).1) (absYear (a / 86400)).2).2, ?_, m1, m12, ?_⟩
  · rcases lt_or_eq_of_le hz with h | h
    · exact h
    · exfalso
      rw [← h, daysSinceEpoch_zero] at hsum
      split_ifs at hyd <;> omega
  · intro k
    rw [hA k, Date_inrange _ _ _ _ _ _ loc (by omega) (by omega) (by omega) (by omega)
      (by omega) (by omega)]
    obtain ⟨x, hx⟩ := offsetAt_lookup loc
      (dateDays (norm ((absYear (a / 86400)).1 + 0)
          (((monthDay (isLeap (absYear (a / 86400)).1) (absYear (a / 86400)).2).1 : Int) + k - 1)
          12).1
        ((norm ((absYear (a / 86400)).1 + 0)
          (((monthDay (isLeap (absYear (a / 86400)).1) (absYear (a / 86400)).2).1 : Int) + k - 1)
          12).2 + 1)
        (((monthDay (isLeap (absYear (a / 86400)).1) (absYear (a / 86400)).2).2 : Int) + 0)
          * 86400
        + (((a % 86400 / 3600 : Nat) : Int) * 3600
          + (((a % 86400 - a % 86400 / 3600 * 3600) / 60 : Nat) : Int) * 60
          + ((a % 86400 - a % 86400 / 3600 * 3600
            - (a % 86400 - a % 86400 / 3600 * 3600) / 60 * 60 : Nat) : Int))
        - internalToAbsolute - unixToInternal)
    refine ⟨x, ?_⟩
    rw [hx]
    simp only [add_zero, internalToAbsolute, unixToInternal] at hasec ⊢
    congr 1
    generalize dateDays (norm (absYear (a / 86400)).1
      (((monthDay (isLeap (absYear (a / 86400)).1) (absYear (a / 86400)).2).1 : Int) + k - 1) 12).1
      ((norm (absYear (a / 86400)).1
      (((monthDay (isLeap (absYear (a / 86400)).1) (absYear (a / 86400)).2).1 : Int) + k - 1) 12).2
        + 1) ((monthDay (isLeap (absYear (a / 86400)).1) (absYear (a / 86400)).2).2 : Int) = X
    generalize (loc.lookup x).offset = ox
    omega

theorem Truncate_minute (s ns : Nat) :
    ∃ q : Int, (Time.ofUnix s ns).Truncate Minute = ⟨60 * q, 0⟩ ∧ unixToInternal ≤ 60 * q ∧
      (60 * q) * 1000000000 ≤ (Time.ofUnix s ns).nanos ∧
      (Time.ofUnix s ns).nanos < (60 * q + 60) * 1000000000 := by
  refine ⟨(Time.ofUnix s ns).nanos / 60000000000, ?_, ?_, ?_, ?_⟩
  · simp only [Time.Truncate, Minute, Time.nanos, Time.ofUnix, unixToInternal]
    rw [if_neg (by norm_num)]
    congr 1 <;> omega
  · simp only [Time.nanos, Time.ofUnix, unixToInternal]
    omega
  · simp only [Time.nanos, Time.ofUnix, unixToInternal]
    omega
  · simp only [Time.nanos, Time.ofUnix, unixToInternal]
    omega

/-- The three times of the response template, relative to the clock reading: the
reading truncated to the minute is `60 * q` seconds and `o` is the offset of the
location then; the wall clock of `RevokedAt` lies 28 to 31 days, that of `ThisUpdate`
59 to 62 days before it and that of `NextUpdate` at least 911 days after it, each
turned into an instant with an offset of the location. -/
theorem template_times (loc : Location) (s ns : Nat) :
    ∃ q d1 d2 d30 o x1 x2 x30 : Int,
      (Time.ofUnix s ns).Truncate Minute = ⟨60 * q, 0⟩ ∧ unixToInternal ≤ 60 * q ∧
      (60 * q) * 1000000000 ≤ (Time.ofUnix s ns).nanos ∧
      (Time.ofUnix s ns).nanos < (60 * q + 60) * 1000000000 ∧
      o = (loc.lookup (60 * q - unixToInternal)).offset ∧
      ((Time.ofUnix s ns).Truncate Minute).AddDate loc 0 (-1) 0
        = ⟨60 * q + o - 86400 * d1 - (loc.lookup x1).offset, 0⟩ ∧
      28 ≤ d1 ∧ d1 ≤ 31 ∧
      ((Time.ofUnix s ns).Truncate Minute).AddDate loc 0 (-2) 0
        = ⟨60 * q + o - 86400 * d2 - (loc.lookup x2).offset, 0⟩ ∧
      59 ≤ d2 ∧ d2 ≤ 62 ∧
      ((Time.ofUnix s ns).Truncate Minute).AddDate loc 0 30 0
        = ⟨60 * q + o + 86400 * d30 - (loc.lookup x30).offset, 0⟩ ∧
      911 ≤ d30 := by
  obtain ⟨q, hq, hU, hlo, hhi⟩ := Truncate_minute s ns
  rw [hq]
  have hr := loc.offsetRange (60 * q - unixToInternal)
  have hrange : 366 * 86400 ≤ (⟨60 * q, 0⟩ : Time).sec
      + (loc.lookup ((⟨60 * q, 0⟩ : Time).sec - unixToInternal)).offset
      + internalToAbsolute := by
    show 366 * 86400 ≤ 60 * q + (loc.lookup (60 * q - unixToInternal)).offset
      + internalToAbsolute
    simp only [unixToInternal, internalToAbsolute] at hU hr ⊢
    omega
  obtain ⟨yr, m, dd, hy, m1, m12, hk⟩ := AddDate_months ⟨60 * q, 0⟩ loc rfl hrange
  obtain ⟨a1, b1⟩ := dateDays_minus1 yr hy m m1 m12 dd
  obtain ⟨a2, b2⟩ := dateDays_minus2 yr hy m m1 m12 dd
  have a30 := dateDays_plus30 yr hy m m1 m12 dd
  obtain ⟨x1, h1⟩ := hk (-1)
  obtain ⟨x2, h2⟩ := hk (-2)
  obtain ⟨x30, h30⟩ := hk 30
  refine ⟨q, dateDays yr m dd
      - dateDays (norm yr ((m : Int) + (-1) - 1) 12).1 ((norm yr ((m : Int) + (-1) - 1) 12).2 + 1) dd,
    dateDays yr m dd
      - dateDays (norm yr ((m : Int) + (-2) - 1) 12).1 ((norm yr ((m : Int) + (-2) - 1) 12).2 + 1) dd,
    dateDays (norm yr ((m : Int) + 30 - 1) 12).1 ((norm yr ((m : Int) + 30 - 1) 12).2 + 1) dd
      - dateDays yr m dd, (loc.lookup (60 * q - unixToInternal)).offset, x1, x2, x30,
    rfl, hU, hlo, hhi, rfl, ?_, by omega, by omega, ?_, by omega, by omega, ?_, by omega⟩
  · rw [h1]
    congr 1
    show 60 * q + (loc.lookup (60 * q - unixToInternal)).offset + _ - _ = _
    ring
  · rw [h2]
    congr 1
    show 60 * q + (loc.lookup (60 * q - unixToInternal)).offset + _ - _ = _
    ring
  · rw [h30]

/-! ## The index reader -/

theorem findEntry_ret (s : Nat) (ents : List IndexEntry) (ent : IndexEntry)
    (h : findEntry s ents = Outcome.ret ent) : ent ∈ ents ∧ ent.Serial = s := by
  induction ents with
  | nil => simp [findEntry] at h
  | cons e rest ih =>
    simp only [findEntry] at h
    split_ifs at h with hs
    · cases h
      exact ⟨List.mem_cons_self _ _, hs⟩
    · exact ⟨List.mem_cons_of_mem _ (ih h).1, (ih h).2⟩

theorem findEntry_none (s : Nat) (ents : List IndexEntry) (h : ∀ e ∈ ents, e.Serial ≠ s) :
    findEntry s ents = Outcome.fail "Serial not found" := by
  induction ents with
  | nil => rfl
  | cons e rest ih =>
    simp only [findEntry]
    rw [if_neg (h e (List.mem_cons_self _ _))]
    exact ih (fun e2 he2 => h e2 (List.mem_cons_of_mem _ he2))

theorem findEntry_first (s : Nat) (before after : List IndexEntry) (ent : IndexEntry)
    (hb : ∀ e ∈ before, e.Serial ≠ s) (hs : ent.Serial = s) :
    findEntry s (before ++ ent :: after) = Outcome.ret ent := by
  induction before with
  | nil => simp [findEntry, hs]
  | cons e rest ih =>
    simp only [List.cons_append, findEntry]
    rw [if_neg (hb e (List.mem_cons_self _ _))]
    exact ih (fun e2 he2 => hb e2 (List.mem_cons_of_mem _ he2))

/-- The entries already collected are kept, in order, in front of those of the lines
still to be read. -/
theorem parseIndexLoop_acc (lines : List String) (acc : List IndexEntry) :
    parseIndexLoop lines acc
      = Outcome.map (fun ents => acc ++ ents) (parseIndexLoop lines []) := by
  induction lines generalizing acc with
  | nil => simp [parseIndexLoop, Outcome.map]
  | cons l rest ih =>
    simp only [parseIndexLoop]
    cases hl : parseLine l with
    | panicked e => simp [Outcome.map]
    | fail e => simp [Outcome.map]
    | ret o =>
      cases o with
      | none => exact ih acc
      | some ie =>
        simp only []
        rw [ih (acc ++ [ie]), ih ([] ++ [ie])]
        cases parseIndexLoop rest [] <;> simp [Outcome.map]

/-- Reading a file is reading its first lines and then the remaining ones. -/
theorem parseIndexLoop_append (pre post : List String) (acc : List IndexEntry) :
    parseIndexLoop (pre ++ post) acc
      = (match parseIndexLoop pre acc with
        | Outcome.ret a => parseIndexLoop post a
        | Outcome.fail e => Outcome.fail e
        | Outcome.panicked e => Outcome.panicked e) := by
  induction pre generalizing acc with
  | nil => simp [parseIndexLoop]
  | cons l rest ih =>
    simp only [List.cons_append, parseIndexLoop]
    cases hl : parseLine l with
    | panicked e => simp
    | fail e => simp
    | ret o =>
      cases o with
      | none => exact ih acc
      | some ie => exact ih (acc ++ [ie])

/-- A line whose first field starts with a byte other than V and R appends nothing
and lets the scan go on. -/
theorem parseLine_other_status (text f0 : String) (b : Nat)
    (h0 : (Fields text).get? 0 = some f0) (hb : firstByte f0 = Outcome.ret b)
    (hv : b ≠ StatusValid) (hr : b ≠ StatusRevoked) :
    parseLine text = Outcome.ret none := by
  simp only [parseLine, index, h0, hb, if_neg hv, if_neg hr]

/-- Field layout of a V line: serial in field 2, subject in field 4. -/
theorem parseLine_valid (text f0 f2 f4 : String)
    (h0 : (Fields text).get? 0 = some f0) (hb : firstByte f0 = Outcome.ret StatusValid)
    (h2 : (Fields text).get? 2 = some f2) (h4 : (Fields text).get? 4 = some f4) :
    parseLine text = Outcome.ret (some ⟨StatusValid, (ParseUint16 f2).1, f4⟩) := by
  simp only [parseLine, index, h0, hb, h2, h4, if_true]

/-- Field layout of an R line: serial in field 3, subject in field 5. -/
theorem parseLine_revoked (text f0 f3 f5 : String)
    (h0 : (Fields text).get? 0 = some f0) (hb : firstByte f0 = Outcome.ret StatusRevoked)
    (h3 : (Fields text).get? 3 = some f3) (h5 : (Fields text).get? 5 = some f5) :
    parseLine text = Outcome.ret (some ⟨StatusRevoked, (ParseUint16 f3).1, f5⟩) := by
  have hne : StatusRevoked ≠ StatusValid := by decide
  simp only [parseLine, index, h0, hb, h3, h5, if_neg hne, if_true]

/-- A line with an unrecognised status byte can be dropped from the file without
changing the entries read. -/
theorem parseIndex_skips_line (pre post : List String) (text : String)
    (h : parseLine text = Outcome.ret none) :
    parseIndex (some (pre ++ text :: post)) = parseIndex (some (pre ++ post)) := by
  simp only [parseIndex]
  rw [parseIndexLoop_append, parseIndexLoop_append]
  cases parseIndexLoop pre [] <;> simp [parseIndexLoop, h]

/-- In a file all of whose lines are read without a panic, the lookup returns the
entry of the first line that carries the serial. -/
theorem getIndexEntry_first_match (pre post : List String) (text : String) (ie : IndexEntry)
    (entsPre entsPost : List IndexEntry) (s : Nat)
    (hpre : parseIndexLoop pre [] = Outcome.ret entsPre)
    (hline : parseLine text = Outcome.ret (some ie))
    (hpost : parseIndexLoop post [] = Outcome.ret entsPost)
    (hno : ∀ e ∈ entsPre, e.Serial ≠ s) (hs : ie.Serial = s) :
    getIndexEntry (some (pre ++ text :: post)) s = Outcome.ret ie := by
  simp only [getIndexEntry, parseIndex]
  rw [parseIndexLoop_append, hpre]
  simp only [parseIndexLoop, hline]
  rw [parseIndexLoop_acc, hpost]
  simp only [Outcome.map, List.append_assoc, List.singleton_append]
  exact findEntry_first s entsPre entsPost ie hno hs

/-! ## The request handler and `verify` -/

theorem requestBytes_post (r : HttpRequest) (h : r.Method = "POST") :
    requestBytes r = Outcome.ret (some r.Body) := by
  simp [requestBytes, h, Buffer.ReadFrom, Buffer.Bytes]

/-- A GET request leaves the buffer empty whatever its path decodes to: `b.Read(gd)`
reads from the empty buffer `b` into `gd`. -/
theorem requestBytes_get (r : HttpRequest) (h : r.Method = "GET") (hp : r.Path.data ≠ []) :
    requestBytes r = Outcome.ret (some []) := by
  have hne : ¬ ("GET" = "POST") := by decide
  simp only [requestBytes, h, hne, if_false, if_true, sliceFrom1]
  cases hd : r.Path.data with
  | nil => exact absurd hd hp
  | cons c cs => simp [Buffer.Read, Buffer.Bytes]

theorem verifyTemplate_ret (env : Env) (self : OCSPResponder) (rawreq : List Nat)
    (tpl : ocsp.Response) (key : PrivateKey)
    (h : verifyTemplate env self rawreq = Outcome.ret (tpl, key)) :
    ∃ req ent, env.ParseRequest rawreq = Except.ok req ∧
      getIndexEntry (env.openIndex self.IndexFile) (Uint64 req.SerialNumber) = Outcome.ret ent ∧
      parseKeyFile env self.RespKeyFile = Outcome.ret key ∧ key.signer = true ∧
      tpl = rtemplate (if ent.Status = StatusRevoked then ocsp.Revoked else ocsp.Good) req
        self.RespCert env.Local ((Time.ofUnix env.nowSec env.nowNsec).Truncate Minute) := by
  simp only [verifyTemplate] at h
  cases hreq : env.ParseRequest rawreq with
  | error e => simp [hreq] at h
  | ok req =>
    simp only [hreq] at h
    cases hent : getIndexEntry (env.openIndex self.IndexFile) (Uint64 req.SerialNumber) with
    | panicked e => simp [hent] at h
    | fail e => simp [hent] at h
    | ret ent =>
      simp only [hent] at h
      cases hkey : parseKeyFile env self.RespKeyFile with
      | panicked e => simp [hkey] at h
      | fail e => simp [hkey] at h
      | ret keyi =>
        simp only [hkey] at h
        by_cases hs : keyi.signer = true
        · rw [if_pos hs] at h
          simp only [Outcome.ret.injEq, Prod.mk.injEq] at h
          obtain ⟨h1, h2⟩ := h
          subst h2
          exact ⟨req, ent, rfl, hent, rfl, hs, h1.symm⟩
        · rw [if_neg hs] at h
          cases h

theorem verifyTemplate_of (env : Env) (self : OCSPResponder) (rawreq : List Nat)
    (req : ocsp.Request) (ent : IndexEntry) (key : PrivateKey)
    (hreq : env.ParseRequest rawreq = Except.ok req)
    (hent : getIndexEntry (env.openIndex self.IndexFile) (Uint64 req.SerialNumber)
      = Outcome.ret ent)
    (hkey : parseKeyFile env self.RespKeyFile = Outcome.ret key) (hs : key.signer = true) :
    verifyTemplate env self rawreq
      = Outcome.ret (rtemplate (if ent.Status = StatusRevoked then ocsp.Revoked else ocsp.Good)
          req self.RespCert env.Local ((Time.ofUnix env.nowSec env.nowNsec).Truncate Minute),
          key) := by
  simp [verifyTemplate, hreq, hent, hkey, hs]

/-! ## The claims -/

/-- C1 (defect of the code). The ledger below holds a line with field 0 `V`, field 2
the hexadecimal text of 0x1A2B and field 4 `CN=alpha`, and no earlier line; it is
followed by an empty line. `getIndexEntry` does not return the entry: `parseIndex`
panics on `ln[0]` of the empty line. -/
theorem C1_lookup_panics_on_blank_line :
    Fields "V 330101000000Z 1A2B unknown CN=alpha"
      = ["V", "330101000000Z", "1A2B", "unknown", "CN=alpha"] ∧
    ParseUint16 "1A2B" = (0x1A2B, none) ∧
    getIndexEntry (some ["V 330101000000Z 1A2B unknown CN=alpha", ""]) 0x1A2B
      = Outcome.panicked "index out of range" := by
  decide

/-- C2 (defect of the code). The only line of the ledger has the serial field `ZZ`,
which is not hexadecimal text, so no line carries serial 0; yet the lookup of
serial 0 returns that line as a match, because the error of `strconv.ParseUint` is
discarded and its value 0 kept. -/
theorem C2_false_match_on_malformed_serial :
    ParseUint16 "ZZ" = (0, some NumError.ErrSyntax) ∧
    getIndexEntry (some ["V 330101000000Z ZZ unknown CN=bad"]) 0
      = Outcome.ret ⟨StatusValid, 0, "CN=bad"⟩ := by
  decide

/-- C3 (defect of the code). Lines whose serial field does not parse still contribute
an entry: a field with a bad digit gives an entry with serial 0 and a field that
overflows 64 bits gives an entry with serial `2 ^ 64 - 1`. -/
theorem C3_malformed_serial_lines_contribute :
    ParseUint16 "0x2C" = (0, some NumError.ErrSyntax) ∧
    ParseUint16 "10000000000000000" = (2 ^ 64 - 1, some NumError.ErrRange) ∧
    parseIndex (some ["V 330101000000Z 1A2B unknown CN=alpha",
                      "R 330101000000Z 240101000000Z 0x2C unknown CN=bad",
                      "V 330101000000Z 10000000000000000 unknown CN=big"])
      = Outcome.ret [⟨StatusValid, 0x1A2B, "CN=alpha"⟩, ⟨StatusRevoked, 0, "CN=bad"⟩,
          ⟨StatusValid, 2 ^ 64 - 1, "CN=big"⟩] := by
  decide

/-- C4 (defect of the code). For the bytes `d = [0x30, 0x00]`, whose standard base64
encoding is `MAA=`, the handler extracts `d` from a POST request with body `d` but
the empty byte string from the GET request with path `/MAA=`: the decoded bytes are
passed to `b.Read`, which reads from the empty buffer instead of writing to it. -/
theorem C4_get_extracts_no_bytes :
    EncodeToString [0x30, 0x00] = "MAA=" ∧ DecodeString "MAA=" = [0x30, 0x00] ∧
    requestBytes ⟨"POST", "application/ocsp-request", "/", [0x30, 0x00]⟩
      = Outcome.ret (some [0x30, 0x00]) ∧
    requestBytes ⟨"GET", "application/ocsp-request", "/MAA=", []⟩ = Outcome.ret (some []) := by
  decide

/-- C5, the claim as stated fails: in the sample world without the responder key file
the revoked entry of serial 0x2C is found, and `verify` returns the error of reading
the key file before any response template is built. -/
theorem C5_found_entry_without_template :
    sampleEnvNoKey.ParseRequest [0x2C] = Except.ok ⟨0x2C⟩ ∧
    getIndexEntry (sampleEnvNoKey.openIndex sampleResponder.IndexFile) (Uint64 0x2C)
      = Outcome.ret ⟨StatusRevoked, 0x2C, "CN=beta"⟩ ∧
    verifyTemplate sampleEnvNoKey sampleResponder [0x2C]
      = Outcome.fail "no such file or directory" :=
  ⟨rfl, by decide, by decide⟩

/-- C5, amended. When the request parses, the ledger lookup of its serial finds an
entry and the responder key file parses to a key that can sign, `verify` builds a
response template; for an entry with status R the template has status Revoked,
reason Unspecified and a non-zero `RevokedAt`, and for an entry with status V it has
status Good. -/
theorem C5_status_classification (env : Env) (self : OCSPResponder) (rawreq : List Nat)
    (req : ocsp.Request) (ent : IndexEntry) (key : PrivateKey)
    (hreq : env.ParseRequest rawreq = Except.ok req)
    (hent : getIndexEntry (env.openIndex self.IndexFile) (Uint64 req.SerialNumber)
      = Outcome.ret ent)
    (hkey : parseKeyFile env self.RespKeyFile = Outcome.ret key) (hs : key.signer = true) :
    ∃ tpl, verifyTemplate env self rawreq = Outcome.ret (tpl, key) ∧
      (ent.Status = StatusRevoked →
        tpl.Status = ocsp.Revoked ∧ tpl.RevocationReason = ocsp.Unspecified ∧
          tpl.RevokedAt.IsZero = false) ∧
      (ent.Status = StatusValid → tpl.Status = ocsp.Good) := by
  refine ⟨_, verifyTemplate_of env self rawreq req ent key hreq hent hkey hs, ?_, ?_⟩
  · intro hR
    refine ⟨by simp [rtemplate, hR], rfl, ?_⟩
    obtain ⟨q, d1, d2, d30, o, x1, x2, x30, hq, hU, _, _, ho, h1, l1, u1, _⟩ :=
      template_times env.Local env.nowSec env.nowNsec
    simp only [rtemplate, h1, Time.IsZero]
    simp only [unixToInternal] at hU
    have r0 := env.Local.offsetRange (60 * q - unixToInternal)
    have r1 := env.Local.offsetRange x1
    rw [← ho] at r0
    have hne : 60 * q + o - 86400 * d1 - (env.Local.lookup x1).offset ≠ 0 := by omega
    simp [hne]
  · intro hV
    have hne : ¬ ent.Status = StatusRevoked := by
      rw [hV]; decide
    simp [rtemplate, hne]

/-- C5, amended, at a concrete input: the revoked serial 0x2C in the sample world. -/
theorem C5_status_classification_witness :
    sampleEnv.ParseRequest [0x2C] = Except.ok ⟨0x2C⟩ ∧
    getIndexEntry (sampleEnv.openIndex sampleResponder.IndexFile) (Uint64 0x2C)
      = Outcome.ret ⟨StatusRevoked, 0x2C, "CN=beta"⟩ ∧
    parseKeyFile sampleEnv sampleResponder.RespKeyFile = Outcome.ret ⟨[3], true⟩ ∧
    ∃ tpl, verifyTemplate sampleEnv sampleResponder [0x2C] = Outcome.ret (tpl, ⟨[3], true⟩) ∧
      (StatusRevoked = StatusRevoked →
        tpl.Status = ocsp.Revoked ∧ tpl.RevocationReason = ocsp.Unspecified ∧
          tpl.RevokedAt.IsZero = false) ∧
      (StatusRevoked = StatusValid → tpl.Status = ocsp.Good) :=
  ⟨rfl, by decide, by decide,
    C5_status_classification sampleEnv sampleResponder [0x2C] ⟨0x2C⟩
      ⟨StatusRevoked, 0x2C, "CN=beta"⟩ ⟨[3], true⟩ rfl (by decide) (by decide) (by decide)⟩

/-- C6, the claim as stated fails: in the sample world of Monrovia, whose zone was 44
minutes 30 seconds west of UTC until January 1972, the template built at
1972-02-01 12:00:30 UTC has `ThisUpdate` at 1971-12-01 12:44:30 UTC, thirty seconds
off a whole minute. -/
theorem C6_sub_minute_zone_off_the_minute :
    verifyTemplate sampleEnvMonrovia sampleResponder [0x2C]
      = Outcome.ret (sampleTemplateMonrovia, ⟨[3], true⟩) ∧
    sampleTemplateMonrovia.ThisUpdate = ⟨60439470 + unixToInternal, 0⟩ ∧
    sampleTemplateMonrovia.ThisUpdate.nanos % Minute = 30000000000 := by
  decide

/-- C6, amended. In a local time zone whose offsets from UTC are whole minutes and at
most a day in size, whenever `verify` builds a response template at clock reading
`t`, its `ThisUpdate` is `t` truncated to the minute minus two calendar months and its
`NextUpdate` is `t` truncated to the minute plus thirty calendar months, both taken on
the wall clock of the local zone; `ThisUpdate` is a whole number of minutes and not
after `t`, `NextUpdate` is after `t`, and `ThisUpdate` is before `NextUpdate`. -/
theorem C6_validity_window (env : Env) (self : OCSPResponder) (rawreq : List Nat)
    (tpl : ocsp.Response) (key : PrivateKey)
    (h : verifyTemplate env self rawreq = Outcome.ret (tpl, key))
    (hz : ∀ u, (env.Local.lookup u).offset % 60 = 0 ∧ -86400 ≤ (env.Local.lookup u).offset ∧
      (env.Local.lookup u).offset ≤ 86400) :
    tpl.ThisUpdate
      = ((Time.ofUnix env.nowSec env.nowNsec).Truncate Minute).AddDate env.Local 0 (-2) 0 ∧
    tpl.NextUpdate
      = ((Time.ofUnix env.nowSec env.nowNsec).Truncate Minute).AddDate env.Local 0 30 0 ∧
    tpl.ThisUpdate.nanos % Minute = 0 ∧
    (Time.ofUnix env.nowSec env.nowNsec).Before tpl.ThisUpdate = false ∧
    (Time.ofUnix env.nowSec env.nowNsec).Before tpl.NextUpdate = true ∧
    tpl.ThisUpdate.Before tpl.NextUpdate = true := by
  obtain ⟨req, ent, _, _, _, _, htpl⟩ := verifyTemplate_ret env self rawreq tpl key h
  obtain ⟨q, d1, d2, d30, o, x1, x2, x30, hq, hU, hlo, hhi, ho, _, _, _, h2, l2, u2, h30, l30⟩ :=
    template_times env.Local env.nowSec env.nowNsec
  have z0 := hz (60 * q - unixToInternal)
  have z2 := hz x2
  have z30 := hz x30
  rw [← ho] at z0
  subst htpl
  generalize (env.Local.lookup x2).offset = o2 at *
  generalize (env.Local.lookup x30).offset = o30 at *
  refine ⟨rfl, rfl, ?_, ?_, ?_, ?_⟩
  · simp only [rtemplate, h2]
    simp only [Time.nanos, Minute]
    omega
  · simp only [rtemplate, h2]
    simp only [Time.Before, Time.nanos, decide_eq_false_iff_not] at hlo ⊢
    omega
  · simp only [rtemplate, h30]
    simp only [Time.Before, Time.nanos, decide_eq_true_eq] at hhi ⊢
    omega
  · simp only [rtemplate, h2, h30]
    simp only [Time.Before, Time.nanos, decide_eq_true_eq]
    omega

/-- C6, amended, at a concrete input: in the sample world of New York the template
built at 2023-11-14 22:13:20 UTC (17:13:20 Eastern Standard Time) is valid from
2023-09-14 17:13:00 Eastern Daylight Time, which is 21:13:00 UTC. -/
theorem C6_validity_window_witness :
    verifyTemplate sampleEnvNewYork sampleResponder [0x2C]
      = Outcome.ret (sampleTemplateNewYork, ⟨[3], true⟩) ∧
    (∀ u, (sampleEnvNewYork.Local.lookup u).offset % 60 = 0 ∧
      -86400 ≤ (sampleEnvNewYork.Local.lookup u).offset ∧
      (sampleEnvNewYork.Local.lookup u).offset ≤ 86400) ∧
    sampleTemplateNewYork.ThisUpdate = ⟨1694725980 + unixToInternal, 0⟩ ∧
    (sampleTemplateNewYork.ThisUpdate
        = ((Time.ofUnix sampleEnvNewYork.nowSec sampleEnvNewYork.nowNsec).Truncate
            Minute).AddDate sampleEnvNewYork.Local 0 (-2) 0 ∧
      sampleTemplateNewYork.NextUpdate
        = ((Time.ofUnix sampleEnvNewYork.nowSec sampleEnvNewYork.nowNsec).Truncate
            Minute).AddDate sampleEnvNewYork.Local 0 30 0 ∧
      sampleTemplateNewYork.ThisUpdate.nanos % Minute = 0 ∧
      (Time.ofUnix sampleEnvNewYork.nowSec sampleEnvNewYork.nowNsec).Before
        sampleTemplateNewYork.ThisUpdate = false ∧
      (Time.ofUnix sampleEnvNewYork.nowSec sampleEnvNewYork.nowNsec).Before
        sampleTemplateNewYork.NextUpdate = true ∧
      sampleTemplateNewYork.ThisUpdate.Before sampleTemplateNewYork.NextUpdate = true) :=
  ⟨by decide,
    fun u => by
      show (newYork.lookup u).offset % 60 = 0 ∧ -86400 ≤ (newYork.lookup u).offset ∧
        (newYork.lookup u).offset ≤ 86400
      simp only [newYork]
      split_ifs <;> decide,
    by decide,
    C6_validity_window sampleEnvNewYork sampleResponder [0x2C] sampleTemplateNewYork
      ⟨[3], true⟩ (by decide)
      (fun u => by
        show (newYork.lookup u).offset % 60 = 0 ∧ -86400 ≤ (newYork.lookup u).offset ∧
          (newYork.lookup u).offset ≤ 86400
        simp only [newYork]
        split_ifs <;> decide)⟩

/-- C7, the claim as stated fails: in the sample world the request for serial
`2 ^ 64 + 0x2C` names a serial that no ledger entry has, yet `verify` returns response
bytes (those of the revoked entry 0x2C) and the handler answers 200 with a body. -/
theorem C7_high_serial_is_answered :
    sampleEnv.ParseRequest [1, 0, 0, 0, 0, 0, 0, 0, 0x2C] = Except.ok ⟨2 ^ 64 + 0x2C⟩ ∧
    parseIndex (sampleEnv.openIndex sampleResponder.IndexFile)
      = Outcome.ret [⟨StatusValid, 0x1A2B, "CN=alpha"⟩, ⟨StatusRevoked, 0x2C, "CN=beta"⟩] ∧
    (∀ e ∈ [(⟨StatusValid, 0x1A2B, "CN=alpha"⟩ : IndexEntry), ⟨StatusRevoked, 0x2C, "CN=beta"⟩],
      (e.Serial : Int) ≠ 2 ^ 64 + 0x2C) ∧
    verify sampleEnv sampleResponder [1, 0, 0, 0, 0, 0, 0, 0, 0x2C] = Outcome.ret [1, 0x2C] ∧
    makeHandler sampleEnv sampleResponder ⟨"POST", "", "/", [1, 0, 0, 0, 0, 0, 0, 0, 0x2C]⟩
        ResponseWriter.fresh
      = Outcome.ret ⟨some "application/ocsp-response", some StatusOK, [1, 0x2C]⟩ :=
  ⟨rfl, by decide, by decide, by decide, by decide⟩

/-- C7, amended. When the request parses, the index file is read to its end and no
entry has the low 64 bits of the request serial, `verify` returns the error
`Serial not found` and no bytes; a handler run that passes the strict-mode gate and
hands these request bytes to `verify` answers with status 400, the response content
type and an empty body. -/
theorem C7_not_found_rejected (env : Env) (self : OCSPResponder) (rawreq : List Nat)
    (req : ocsp.Request) (ents : List IndexEntry)
    (hreq : env.ParseRequest rawreq = Except.ok req)
    (hidx : parseIndex (env.openIndex self.IndexFile) = Outcome.ret ents)
    (hno : ∀ e ∈ ents, e.Serial ≠ Uint64 req.SerialNumber) :
    verify env self rawreq = Outcome.fail "Serial not found" ∧
    ∀ r : HttpRequest, ¬ (self.Strict = true ∧ r.ContentType ≠ "application/ocsp-request") →
      requestBytes r = Outcome.ret (some rawreq) →
      makeHandler env self r ResponseWriter.fresh
        = Outcome.ret ⟨some "application/ocsp-response", some StatusBadRequest, []⟩ := by
  have hget : getIndexEntry (env.openIndex self.IndexFile) (Uint64 req.SerialNumber)
      = Outcome.fail "Serial not found" := by
    simp only [getIndexEntry, hidx]
    exact findEntry_none _ _ hno
  have hv : verify env self rawreq = Outcome.fail "Serial not found" := by
    simp only [verify, verifyTemplate, hreq, hget]
  refine ⟨hv, ?_⟩
  intro r hgate hbytes
  simp only [makeHandler, if_neg hgate, hbytes, hv]
  rfl

/-- C7, amended, at a concrete input: serial 0x2D in the sample world, sent by POST. -/
theorem C7_not_found_rejected_witness :
    sampleEnv.ParseRequest [0x2D] = Except.ok ⟨0x2D⟩ ∧
    parseIndex (sampleEnv.openIndex sampleResponder.IndexFile)
      = Outcome.ret [⟨StatusValid, 0x1A2B, "CN=alpha"⟩, ⟨StatusRevoked, 0x2C, "CN=beta"⟩] ∧
    (∀ e ∈ [(⟨StatusValid, 0x1A2B, "CN=alpha"⟩ : IndexEntry), ⟨StatusRevoked, 0x2C, "CN=beta"⟩],
      e.Serial ≠ Uint64 0x2D) ∧
    verify sampleEnv sampleResponder [0x2D] = Outcome.fail "Serial not found" ∧
    makeHandler sampleEnv sampleResponder ⟨"POST", "", "/", [0x2D]⟩ ResponseWriter.fresh
      = Outcome.ret ⟨some "application/ocsp-response", some StatusBadRequest, []⟩ :=
  ⟨rfl, by decide, by decide,
    (C7_not_found_rejected sampleEnv sampleResponder [0x2D] ⟨0x2D⟩
      [⟨StatusValid, 0x1A2B, "CN=alpha"⟩, ⟨StatusRevoked, 0x2C, "CN=beta"⟩] rfl (by decide)
      (by decide)).1,
    (C7_not_found_rejected sampleEnv sampleResponder [0x2D] ⟨0x2D⟩
      [⟨StatusValid, 0x1A2B, "CN=alpha"⟩, ⟨StatusRevoked, 0x2C, "CN=beta"⟩] rfl (by decide)
      (by decide)).2 ⟨"POST", "", "/", [0x2D]⟩ (by decide) (by decide)⟩

/-- C8, the claim as stated fails: where the responder key file is missing, or holds
a key that cannot sign, `Serve` does not abort; it sets both certificates and serves,
and the unusable key shows first when a request is handled, as an error of `verify`
answered with status 400. -/
theorem C8_unusable_key_passes_startup :
    parseKeyFile sampleEnvNoKey Responder.RespKeyFile
      = Outcome.fail "no such file or directory" ∧
    Serve sampleEnvNoKey Responder = ServeResult.serving sampleResponder ∧
    verify sampleEnvNoKey sampleResponder [0x2C] = Outcome.fail "no such file or directory" ∧
    makeHandler sampleEnvNoKey sampleResponder ⟨"POST", "", "/", [0x2C]⟩ ResponseWriter.fresh
      = Outcome.ret ⟨some "application/ocsp-response", some StatusBadRequest, []⟩ ∧
    parseKeyFile sampleEnvBadKey Responder.RespKeyFile = Outcome.ret ⟨[3], false⟩ ∧
    Serve sampleEnvBadKey Responder = ServeResult.serving sampleResponder ∧
    verify sampleEnvBadKey sampleResponder [0x2C]
      = Outcome.fail "Could not make key a signer..." := by
  decide

/-- C8, amended. When the issuer certificate file is unreadable or holds a PEM block
that is not a certificate, or the issuer certificate loads and the responder
certificate file is unreadable or holds a PEM block that is not a certificate,
`Serve` returns an error before the handler is registered and leaves the responder
as it was, with neither certificate set. `Serve` does not examine the responder key
file: its result is the same whatever that file holds and however a key parses. A key
file that is unreadable, or holds a PEM block that is not a PKCS#8 key, or holds a
key that cannot sign, shows at request time: for a request that parses and whose
ledger entry is found, `verify` returns an error, and a handler run that passes the
strict-mode gate and hands these request bytes to `verify` answers with status 400
and an empty body. -/
theorem C8_bad_certificate_aborts_startup (env : Env) (self : OCSPResponder) :
    ((certFileUnusable env self.CaCertFile = true ∨
        ((∃ cacert, parseCertFile env self.CaCertFile = Outcome.ret cacert) ∧
          certFileUnusable env self.RespCertFile = true)) →
      ∃ e, Serve env self = ServeResult.aborted e self) ∧
    (∀ (readFile : String → Except String (List Nat))
        (parseKey : List Nat → Except String PrivateKey),
      readFile self.CaCertFile = env.ReadFile self.CaCertFile →
      readFile self.RespCertFile = env.ReadFile self.RespCertFile →
      Serve { env with ReadFile := readFile, ParsePKCS8PrivateKey := parseKey } self
        = Serve env self) ∧
    (∀ rawreq req ent, env.ParseRequest rawreq = Except.ok req →
      getIndexEntry (env.openIndex self.IndexFile) (Uint64 req.SerialNumber) = Outcome.ret ent →
      keyFileUnusable env self.RespKeyFile = true →
      (∃ e, verify env self rawreq = Outcome.fail e) ∧
      ∀ r : HttpRequest, ¬ (self.Strict = true ∧ r.ContentType ≠ "application/ocsp-request") →
        requestBytes r = Outcome.ret (some rawreq) →
        makeHandler env self r ResponseWriter.fresh
          = Outcome.ret ⟨some "application/ocsp-response", some StatusBadRequest, []⟩) := by
  refine ⟨?_, ?_, ?_⟩
  · intro h
    have key : ∀ f, certFileUnusable env f = true →
        ∃ e, parseCertFile env f = Outcome.fail e := by
      intro f hf
      simp only [certFileUnusable] at hf
      cases hr : env.ReadFile f with
      | error e => exact ⟨e, by simp only [parseCertFile, hr]⟩
      | ok ct =>
        simp only [hr] at hf
        cases hp : env.pemDecode ct with
        | none => simp [hp] at hf
        | some der =>
          simp only [hp] at hf
          cases hc : env.ParseCertificate der with
          | error e => exact ⟨e, by simp only [parseCertFile, hr, hp, hc]⟩
          | ok c => simp [hc] at hf
    rcases h with h | ⟨⟨cacert, hca⟩, h⟩
    · obtain ⟨e, he⟩ := key _ h
      exact ⟨e, by simp only [Serve, he]⟩
    · obtain ⟨e, he⟩ := key _ h
      exact ⟨e, by simp only [Serve, hca, he]⟩
  · intro readFile parseKey hca hresp
    simp only [Serve, parseCertFile, hca, hresp]
  · intro rawreq req ent hreq hent hk
    have hv : ∃ e, verify env self rawreq = Outcome.fail e := by
      simp only [keyFileUnusable] at hk
      cases hr : env.ReadFile self.RespKeyFile with
      | error e =>
        exact ⟨e, by simp only [verify, verifyTemplate, hreq, hent, parseKeyFile, hr]⟩
      | ok kt =>
        simp only [hr] at hk
        cases hp : env.pemDecode kt with
        | none => simp [hp] at hk
        | some der =>
          simp only [hp] at hk
          cases hc : env.ParsePKCS8PrivateKey der with
          | error e =>
            exact ⟨e, by simp only [verify, verifyTemplate, hreq, hent, parseKeyFile, hr, hp, hc]⟩
          | ok k =>
            simp only [hc, Bool.not_eq_true'] at hk
            exact ⟨"Could not make key a signer...",
              by simp [verify, verifyTemplate, hreq, hent, parseKeyFile, hr, hp, hc, hk]⟩
    refine ⟨hv, ?_⟩
    obtain ⟨e, he⟩ := hv
    intro r hgate hbytes
    simp only [makeHandler, if_neg hgate, hbytes, he]
    rfl

/-- C8, amended, at concrete inputs: without the issuer certificate file `Serve`
aborts; without the responder key file the request for serial 0x2C fails in `verify`
and is answered with status 400. -/
theorem C8_bad_certificate_aborts_startup_witness :
    certFileUnusable sampleEnvNoCaCert Responder.CaCertFile = true ∧
    (∃ e, Serve sampleEnvNoCaCert Responder = ServeResult.aborted e Responder) ∧
    sampleEnvNoKey.ParseRequest [0x2C] = Except.ok ⟨0x2C⟩ ∧
    getIndexEntry (sampleEnvNoKey.openIndex sampleResponder.IndexFile) (Uint64 0x2C)
      = Outcome.ret ⟨StatusRevoked, 0x2C, "CN=beta"⟩ ∧
    keyFileUnusable sampleEnvNoKey sampleResponder.RespKeyFile = true ∧
    (∃ e, verify sampleEnvNoKey sampleResponder [0x2C] = Outcome.fail e) ∧
    makeHandler sampleEnvNoKey sampleResponder ⟨"POST", "", "/", [0x2C]⟩ ResponseWriter.fresh
      = Outcome.ret ⟨some "application/ocsp-response", some StatusBadRequest, []⟩ :=
  ⟨by decide,
    (C8_bad_certificate_aborts_startup sampleEnvNoCaCert Responder).1 (Or.inl (by decide)),
    rfl, by decide, by decide,
    ((C8_bad_certificate_aborts_startup sampleEnvNoKey sampleResponder).2.2 [0x2C] ⟨0x2C⟩
      ⟨StatusRevoked, 0x2C, "CN=beta"⟩ rfl (by decide) (by decide)).1,
    ((C8_bad_certificate_aborts_startup sampleEnvNoKey sampleResponder).2.2 [0x2C] ⟨0x2C⟩
      ⟨StatusRevoked, 0x2C, "CN=beta"⟩ rfl (by decide) (by decide)).2
      ⟨"POST", "", "/", [0x2C]⟩ (by decide) (by decide)⟩

/-- C9, the claim as stated fails: on the line of the scenario the serial of a V
line is read from field 2, which holds `...`, and the lookup of 0x1A2B finds
nothing. -/
theorem C9_scenario_line_not_found :
    Fields "V\t01\t...\t1A2B\t...\tsubject=example"
      = ["V", "01", "...", "1A2B", "...", "subject=example"] ∧
    getIndexEntry (some ["V\t01\t...\t1A2B\t...\tsubject=example"]) 0x1A2B
      = Outcome.fail "Serial not found" := by
  decide

/-- C9, amended. For the one-line ledger `V\t01\t\t1A2B\t...\tsubject=example`, whose
third tab-separated column is empty so that its whitespace-delimited fields are `V`,
`01`, `1A2B`, `...`, `subject=example` (serial in field 2, subject in field 4), the
lookup of 0x1A2B returns the entry with status V, serial 0x1A2B and distinguished
name `subject=example`, the whole of field 4. -/
theorem C9_scenario_documented_offsets :
    Fields "V\t01\t\t1A2B\t...\tsubject=example"
      = ["V", "01", "1A2B", "...", "subject=example"] ∧
    getIndexEntry (some ["V\t01\t\t1A2B\t...\tsubject=example"]) 0x1A2B
      = Outcome.ret ⟨StatusValid, 0x1A2B, "subject=example"⟩ := by
  decide

/-- C10. For two requests whose non-negative serials agree modulo `2 ^ 64`, `verify`
reaches the same outcome and, when it builds templates, they differ only in the
serial they carry. Whenever `verify` builds a template for a request with serial `n`,
the template carries `n` in full and its status is that of the ledger entry found for
`n mod 2 ^ 64`, whose serial is `n mod 2 ^ 64`; and when the lookup of `n mod 2 ^ 64`
finds an entry and the key file gives a signing key, `verify` does build that
template. -/
theorem C10_serial_truncation (env : Env) (self : OCSPResponder) (raw1 raw2 : List Nat)
    (req1 req2 : ocsp.Request)
    (h1 : env.ParseRequest raw1 = Except.ok req1) (h2 : env.ParseRequest raw2 = Except.ok req2)
    (n1 : 0 ≤ req1.SerialNumber) (n2 : 0 ≤ req2.SerialNumber)
    (hc : req1.SerialNumber.toNat % 2 ^ 64 = req2.SerialNumber.toNat % 2 ^ 64) :
    verifyTemplate env self raw1
      = Outcome.map (fun p => ({ p.1 with SerialNumber := req1.SerialNumber }, p.2))
          (verifyTemplate env self raw2) ∧
    (∀ tpl key, verifyTemplate env self raw1 = Outcome.ret (tpl, key) →
      tpl.SerialNumber = req1.SerialNumber ∧
      ∃ ent, getIndexEntry (env.openIndex self.IndexFile) (req1.SerialNumber.toNat % 2 ^ 64)
          = Outcome.ret ent ∧
        ent.Serial = req1.SerialNumber.toNat % 2 ^ 64 ∧
        tpl.Status = (if ent.Status = StatusRevoked then ocsp.Revoked else ocsp.Good)) ∧
    (∀ ent key, getIndexEntry (env.openIndex self.IndexFile) (req1.SerialNumber.toNat % 2 ^ 64)
        = Outcome.ret ent →
      parseKeyFile env self.RespKeyFile = Outcome.ret key → key.signer = true →
      ∃ tpl, verifyTemplate env self raw1 = Outcome.ret (tpl, key) ∧
        tpl.SerialNumber = req1.SerialNumber ∧
        tpl.Status = (if ent.Status = StatusRevoked then ocsp.Revoked else ocsp.Good)) := by
  have u1 : Uint64 req1.SerialNumber = req1.SerialNumber.toNat % 2 ^ 64 := by
    simp only [Uint64]
    congr 1
    omega
  have u2 : Uint64 req2.SerialNumber = req2.SerialNumber.toNat % 2 ^ 64 := by
    simp only [Uint64]
    congr 1
    omega
  refine ⟨?_, ?_, ?_⟩
  · simp only [verifyTemplate, h1, h2, u1, u2, hc]
    cases getIndexEntry (env.openIndex self.IndexFile) (req2.SerialNumber.toNat % 2 ^ 64) with
    | panicked e => rfl
    | fail e => rfl
    | ret ent =>
      simp only []
      cases parseKeyFile env self.RespKeyFile with
      | panicked e => rfl
      | fail e => rfl
      | ret keyi =>
        simp only []
        by_cases hs : keyi.signer = true
        · simp only [if_pos hs, Outcome.map, rtemplate]
        · simp only [if_neg hs, Outcome.map]
  · intro tpl key h
    obtain ⟨req, ent, hreq, hent, _, _, htpl⟩ := verifyTemplate_ret env self raw1 tpl key h
    rw [h1] at hreq
    cases hreq
    rw [u1] at hent
    refine ⟨by rw [htpl]; rfl, ent, hent, ?_, by rw [htpl]; rfl⟩
    simp only [getIndexEntry] at hent
    cases hp : parseIndex (env.openIndex self.IndexFile) with
    | panicked e => simp [hp] at hent
    | fail e => simp [hp] at hent
    | ret ents =>
      simp only [hp] at hent
      exact (findEntry_ret _ _ _ hent).2
  · intro ent key hent hkey hs
    rw [← u1] at hent
    exact ⟨_, verifyTemplate_of env self raw1 req1 ent key h1 hent hkey hs, rfl, rfl⟩

/-- C10 at a concrete input: in the sample world the requests for `2 ^ 64 + 0x2C` and
for `0x2C` are both classified by the revoked entry 0x2C. -/
theorem C10_serial_truncation_witness :
    sampleEnv.ParseRequest [1, 0, 0, 0, 0, 0, 0, 0, 0x2C] = Except.ok ⟨2 ^ 64 + 0x2C⟩ ∧
    sampleEnv.ParseRequest [0x2C] = Except.ok ⟨0x2C⟩ ∧
    (2 ^ 64 + 0x2C : Int).toNat % 2 ^ 64 = (0x2C : Int).toNat % 2 ^ 64 ∧
    verifyTemplate sampleEnv sampleResponder [1, 0, 0, 0, 0, 0, 0, 0, 0x2C]
      = Outcome.ret ({ sampleTemplate with SerialNumber := 2 ^ 64 + 0x2C }, ⟨[3], true⟩) ∧
    verifyTemplate sampleEnv sampleResponder [1, 0, 0, 0, 0, 0, 0, 0, 0x2C]
      = Outcome.map (fun p => ({ p.1 with SerialNumber := 2 ^ 64 + 0x2C }, p.2))
          (verifyTemplate sampleEnv sampleResponder [0x2C]) :=
  ⟨rfl, rfl, by decide, by decide,
    (C10_serial_truncation sampleEnv sampleResponder [1, 0, 0, 0, 0, 0, 0, 0, 0x2C] [0x2C]
      ⟨2 ^ 64 + 0x2C⟩ ⟨0x2C⟩ (by rfl) (by rfl) (by decide) (by decide) (by decide)).1⟩

end GOCSP
